import Mathlib

/-
Verification of the LibrePCB board design rule check (DRC) engine,
a shallow embedding of
src/libs/librepcb/core/project/board/drc/boarddesignrulecheck.cpp.

Lengths are integer nanometres (the Length type of the source is a signed
64-bit integer; none of the facts below depend on 64-bit wraparound, so
lengths are embedded as Int).  Angles are integer 1/1000 degrees.

The polygon algebra (ClipperHelpers / ClipperLib) and the board-object to
polygon-set conversion (BoardClipperPathGenerator) are not part of the
sources; following the specification they are treated as an abstract
geometry backend, a structure `Geom` whose fields are exactly the
operations the engine invokes.  All engine-level theorems are proved for
every backend; a small executable backend (`discGeom`, regions as unions
of discs) instantiates them for concrete runs.
-/

/-- Point in integer nanometres (the Point class of the source). -/
structure Pt where
  x : Int
  y : Int
deriving DecidableEq, Repr

/-- Vertex of a path: position plus the arc sweep angle (integer
1/1000 degrees) of the edge leaving this vertex; sweep 0 is a straight
segment (Vertex class of the source). -/
structure Vertex where
  pos : Pt
  sweep : Int
deriving DecidableEq, Repr

/-- Ordered vertex list (the Path class of the source). -/
structure PathR where
  vertices : List Vertex
deriving DecidableEq, Repr

/-- Modelled from the spec: a path is closed when it has at least two
vertices and the first position equals the last position (Path::isClosed,
not under src/). -/
def PathR.isClosed (p : PathR) : Bool :=
  match p.vertices with
  | [] => false
  | v :: vs =>
    match vs.getLast? with
    | none => false
    | some w => v.pos = w.pos

/-- Layer identifiers used by the engine (Layer class of the source,
not under src/; the enumeration follows the spec stackup model). -/
inductive Layer where
  | topCopper
  | innerCopper (n : Nat)
  | botCopper
  | boardOutlines
  | topCourtyard
  | botCourtyard
  | topDocumentation
  | botDocumentation
  | topPlacement
  | botPlacement
deriving DecidableEq, Repr

/-- Modelled from the spec: mirroring maps top to bottom (and back) for
copper, courtyard, documentation and placement; invariant layers map to
themselves (spec section 4.E; Layer::mirrored is not under src/). -/
def Layer.mirrored : Layer → Layer
  | .topCopper => .botCopper
  | .botCopper => .topCopper
  | .topCourtyard => .botCourtyard
  | .botCourtyard => .topCourtyard
  | .topDocumentation => .botDocumentation
  | .botDocumentation => .topDocumentation
  | .topPlacement => .botPlacement
  | .botPlacement => .topPlacement
  | .innerCopper n => .innerCopper n
  | .boardOutlines => .boardOutlines

/-- Placement transform of a board item (Transform class of the source,
not under src/): position, rotation in 1/1000 degrees, mirror flag. -/
structure Transform where
  pos : Pt
  rot : Int
  mirror : Bool
deriving DecidableEq, Repr

/-- Identity transform (the default-constructed Transform()). -/
def Transform.identity : Transform := ⟨⟨0, 0⟩, 0, false⟩

/-- Modelled from the spec: a transform maps a layer by mirroring it when
the transform mirrors (used by getDeviceCourtyardPaths). -/
def Transform.mapLayer (t : Transform) (l : Layer) : Layer :=
  if t.mirror then l.mirrored else l

/-- Via of a net segment (BI_Via): drill diameter and outer size are
PositiveLength fields of the source; through-hole, so no single layer. -/
structure Via where
  uuid : Nat
  pos : Pt
  drill : Int
  size : Int
deriving DecidableEq, Repr

/-- Net line (trace) of a net segment (BI_NetLine). -/
structure NetLine where
  uuid : Nat
  layer : Layer
  width : Int
  startPos : Pt
  endPos : Pt
deriving DecidableEq, Repr

/-- Junction of a net segment (BI_NetPoint); `used` records whether any
net line is attached (BI_NetPoint::isUsed). -/
structure NetPoint where
  uuid : Nat
  pos : Pt
  used : Bool
deriving DecidableEq, Repr

/-- Net segment (BI_NetSegment): optional net signal (none = no net),
its vias, net lines and net points; `used` is BI_NetSegment::isUsed. -/
structure NetSegment where
  uuid : Nat
  netSignal : Option Nat
  vias : List Via
  netLines : List NetLine
  netPoints : List NetPoint
  used : Bool
deriving DecidableEq, Repr

/-- Plane (BI_Plane): layer, minimum width setting, outline, and the
(mandatory) net signal. -/
structure Plane where
  uuid : Nat
  layer : Layer
  minWidth : Int
  outline : PathR
  netSignal : Nat
deriving DecidableEq, Repr

/-- Polygon graphics item (Polygon / BI_Polygon data). -/
structure PolygonData where
  uuid : Nat
  layer : Layer
  path : PathR
  lineWidth : Int
  filled : Bool
deriving DecidableEq, Repr

/-- Circle graphics item (Circle). -/
structure CircleData where
  uuid : Nat
  layer : Layer
  center : Pt
  diameter : Int
  lineWidth : Int
  filled : Bool
deriving DecidableEq, Repr

/-- Stroke text (StrokeText / BI_StrokeText): its own placement
transform, stroke width, and the rendered character paths returned by
getPaths(). -/
structure StrokeTextData where
  uuid : Nat
  layer : Layer
  strokeWidth : Int
  pos : Pt
  rot : Int
  mirror : Bool
  paths : List PathR
deriving DecidableEq, Repr

/-- Placement transform of a stroke text (Transform(text->getTextObj())). -/
def StrokeTextData.transform (t : StrokeTextData) : Transform :=
  ⟨t.pos, t.rot, t.mirror⟩

/-- Non-plated hole (Hole): drill diameter and drill path (1 vertex =
round drill, more = slot). -/
structure HoleData where
  uuid : Nat
  diameter : Int
  path : PathR
deriving DecidableEq, Repr

/-- Plated hole of a footprint pad (PadHole). -/
structure PadHoleData where
  uuid : Nat
  diameter : Int
  path : PathR
deriving DecidableEq, Repr

/-- One layer-specific pad geometry entry (PadGeometry); its shape data
is only consumed by the abstract geometry backend. -/
structure PadGeometry where
  shapeId : Nat
deriving DecidableEq, Repr

/-- Footprint pad of a device (BI_FootprintPad with its library pad):
global placement, the library-local pad transform, the copper layers the
pad is on, the net signal of the linked component signal, the pad holes,
the per-layer geometries, and the layers of the net lines attached to
the pad (pad->getNetLines). -/
structure Pad where
  uuid : Nat
  pos : Pt
  rot : Int
  mirror : Bool
  libPos : Pt
  libRot : Int
  onLayers : List Layer
  netSignal : Option Nat
  holes : List PadHoleData
  geometries : List (Layer × List PadGeometry)
  connectedNetLineLayers : List Layer
deriving DecidableEq, Repr

/-- Library pad transform (Transform(pad->getLibPad().getPosition(),
pad->getLibPad().getRotation())). -/
def Pad.libTransform (p : Pad) : Transform := ⟨p.libPos, p.libRot, false⟩

/-- Global pad transform (Transform(*pad)). -/
def Pad.transform (p : Pad) : Transform := ⟨p.pos, p.rot, p.mirror⟩

/-- Pad::isOnLayer. -/
def Pad.isOnLayer (p : Pad) (l : Layer) : Bool := l ∈ p.onLayers

/-- Per-layer pad geometries (pad->getGeometries().value(layer)). -/
def Pad.geometriesOn (p : Pad) (l : Layer) : List PadGeometry :=
  match p.geometries.find? (fun e => e.fst = l) with
  | none => []
  | some e => e.snd

/-- Library footprint contents of a device (Footprint). -/
structure Footprint where
  polygons : List PolygonData
  circles : List CircleData
  holes : List HoleData
deriving DecidableEq, Repr

/-- Placed device (BI_Device): component instance uuid, library device
uuid, placement, library footprint, pads and device stroke texts. -/
structure Device where
  uuid : Nat
  cmpUuid : Nat
  libDeviceUuid : Nat
  pos : Pt
  rot : Int
  mirror : Bool
  footprint : Footprint
  pads : List Pad
  strokeTexts : List StrokeTextData
deriving DecidableEq, Repr

/-- Placement transform of a device (Transform(*device)). -/
def Device.transform (d : Device) : Transform := ⟨d.pos, d.rot, d.mirror⟩

/-- Component instance of the circuit (ComponentInstance). -/
structure ComponentInstance where
  uuid : Nat
  schematicOnly : Bool
  defaultDevice : Option Nat
deriving DecidableEq, Repr

/-- Air wire (BI_AirWire): visualization of an unrouted connection. -/
structure AirWire where
  netSignal : Nat
  p1 : Pt
  p2 : Pt
deriving DecidableEq, Repr

/-- Board model consumed by the engine (Board plus the circuit part of
the surrounding Project that the engine reads). -/
structure Board where
  copperLayers : List Layer
  netSegments : List NetSegment
  planes : List Plane
  polygons : List PolygonData
  strokeTexts : List StrokeTextData
  holes : List HoleData
  devices : List Device
  componentInstances : List ComponentInstance
  airWires : List AirWire
deriving DecidableEq, Repr

/-- Board::getDeviceInstanceByComponentUuid. -/
def Board.deviceByComponentUuid (b : Board) (u : Nat) : Option Device :=
  b.devices.find? (fun d => d.cmpUuid = u)

/-- Allowed-slots setting (BoardDesignRuleCheckSettings::AllowedSlots);
the constructor order gives the ordering used by the comparisons of
requiresHoleSlotWarning. -/
inductive AllowedSlots where
  | none
  | singleSegmentStraight
  | multiSegmentStraight
  | any
deriving DecidableEq, Repr

/-- Rank realizing the order None < SingleSegmentStraight <
MultiSegmentStraight < Any of the source enum. -/
def AllowedSlots.rank : AllowedSlots → Nat
  | .none => 0
  | .singleSegmentStraight => 1
  | .multiSegmentStraight => 2
  | .any => 3

/-- DRC settings record (BoardDesignRuleCheckSettings, not under src/;
fields follow the spec settings list, all lengths in nm, 0 disables the
check). -/
structure DrcSettings where
  minCopperWidth : Int
  minCopperCopperClearance : Int
  minCopperBoardClearance : Int
  minCopperNpthClearance : Int
  minDrillDrillClearance : Int
  minDrillBoardClearance : Int
  minPthAnnularRing : Int
  minNpthDrillDiameter : Int
  minPthDrillDiameter : Int
  minNpthSlotWidth : Int
  minPthSlotWidth : Int
  allowedNpthSlots : AllowedSlots
  allowedPthSlots : AllowedSlots
  minOutlineToolDiameter : Int
deriving DecidableEq, Repr

/-- Modelled from the spec: maxArcTolerance() is the fixed engine
constant 5 micrometres = 5000 nm (defined in boarddesignrulecheck.h,
not under src/). -/
def maxArcTolerance : Int := 5000

/-- Kinds of emitted rule check messages (the closed DrcMsg taxonomy). -/
inductive MsgKind where
  | minimumWidth
  | copperCopperClearance
  | copperBoardClearance
  | copperHoleClearance
  | drillDrillClearance
  | drillBoardClearance
  | minimumAnnularRing
  | minimumDrillDiameter
  | minimumSlotWidth
  | forbiddenSlot
  | invalidPadConnection
  | courtyardOverlap
  | openBoardOutlinePolygon
  | missingBoardOutline
  | multipleBoardOutlines
  | minimumBoardOutlineInnerRadius
  | missingDevice
  | defaultDeviceMismatch
  | missingConnection
  | emptyNetSegment
  | unconnectedJunction
deriving DecidableEq, Repr

/-- Emitted rule check message: its kind, the identities of the objects
passed to the message constructor (uuids and encoded layer/net
references, in constructor argument order), and the location paths.
Localized texts and the approval S-expression are not modelled here;
the approval envelope is treated separately with the approval
resolution model below. -/
structure Msg where
  kind : MsgKind
  refs : List Nat
  locations : List PathR
deriving DecidableEq, Repr

/-- Numeric code of a layer, used to record layer references inside
message identities. -/
def layerCode : Layer → Nat
  | .topCopper => 0
  | .innerCopper n => 100 + n
  | .botCopper => 1
  | .boardOutlines => 2
  | .topCourtyard => 3
  | .botCourtyard => 4
  | .topDocumentation => 5
  | .botDocumentation => 6
  | .topPlacement => 7
  | .botPlacement => 8

/-- Encoding of an optional reference (0 = null pointer). -/
def optCode : Option Nat → Nat
  | Option.none => 0
  | Option.some n => n + 1

/-- Encoding of an optional layer reference (0 = null pointer). -/
def optLayerCode : Option Layer → Nat
  | Option.none => 0
  | Option.some l => layerCode l + 1

/-- Abstract polygon-set backend.  ClipperLib, ClipperHelpers and
BoardClipperPathGenerator are not part of the sources, so — following
the specification — the polygon algebra is an abstract structure whose
fields are exactly the operations the engine invokes.  Engine theorems
are proved for every backend. -/
structure Geom where
  Area : Type
  emptyArea : Area
  viaArea : Via → Int → Area
  netLineArea : NetLine → Int → Area
  planeArea : Plane → Area
  polygonArea : PolygonData → Area
  polygonAreaT : PolygonData → Transform → Area
  strokeTextArea : StrokeTextData → Int → Area
  padArea : Pad → Transform → Layer → Int → Area
  circleArea : CircleData → Transform → Int → Area
  holeArea : HoleData → Transform → Int → Area
  copperOnLayer : Board → Layer → Bool → Area
  offsetArea : Area → Int → Area
  uniteArea : Area → Area → Area
  uniteSelfNonZero : Area → Area
  uniteEvenOdd : List PathR → Area
  intersectArea : Area → Area → Area
  intersectAll : List Area → Area
  subtractArea : Area → Area → Area
  flattenArea : Area → List PathR
  ringPaths : Area → Area
  convertPaths : List PathR → Area
  pathArea : PathR → Area
  strokeArea : PathR → Int → Area
  outlineStrokes : PathR → Int → List PathR
  circlePathAt : Int → Pt → PathR
  obroundPath : Pt → Pt → Int → PathR
  mapPath : Transform → PathR → PathR
  mapPoint : Transform → Pt → Pt
  padGeomCoversOrigin : PadGeometry → Bool

/-- Single-vertex path at a point (makeNonEmptyPath(position)). -/
def pointPath (p : Pt) : PathR := ⟨[⟨p, 0⟩]⟩

/-- Path::translated: translation is exact integer arithmetic. -/
def PathR.translated (p : PathR) (d : Pt) : PathR :=
  ⟨p.vertices.map (fun v => ⟨⟨v.pos.x + d.x, v.pos.y + d.y⟩, v.sweep⟩)⟩

/-- Path::rotated(Angle::deg90()) about the origin: exact integer
quarter-turn, (x, y) to (-y, x). -/
def PathR.rotated90 (p : PathR) : PathR :=
  ⟨p.vertices.map (fun v => ⟨⟨-v.pos.y, v.pos.x⟩, v.sweep⟩)⟩

/-- Modelled from the spec: Path::toClosedPath returns the path itself
when already closed (or empty), else a copy with the start position
appended (not under src/). -/
def PathR.toClosedPath (p : PathR) : PathR :=
  match p.vertices with
  | [] => p
  | v :: _ => if p.isClosed then p else ⟨p.vertices ++ [⟨v.pos, 0⟩]⟩

/-- Generic unordered-pair loop of the engine: for it1 over the list and
it2 over the items after it1, keep the results of f it1 it2 (the double
iterator loop of checkCopperCopperClearances / checkDrillDrillClearances
/ checkCourtyardClearances). -/
def pairMsgs {α β : Type} (f : α → α → Option β) : List α → List β
  | [] => []
  | x :: xs => xs.filterMap (f x) ++ pairMsgs f xs

/-- Origin of one copper item collected by checkCopperCopperClearances
(the item / polygon / circle pointers of the local Item struct). -/
inductive CopperSrc where
  | viaSrc (v : Via)
  | netLineSrc (n : NetLine)
  | planeSrc (p : Plane)
  | boardPolygonSrc (p : PolygonData)
  | boardTextSrc (t : StrokeTextData)
  | padSrc (d : Device) (p : Pad)
  | devicePolygonSrc (d : Device) (p : PolygonData)
  | deviceCircleSrc (d : Device) (c : CircleData)
  | deviceTextSrc (d : Device) (t : StrokeTextData)
deriving DecidableEq, Repr

/-- Identity references a copper item contributes to the violation
message (the item, polygon and circle constructor arguments). -/
def CopperSrc.refs : CopperSrc → List Nat
  | .viaSrc v => [v.uuid]
  | .netLineSrc n => [n.uuid]
  | .planeSrc p => [p.uuid]
  | .boardPolygonSrc p => [p.uuid]
  | .boardTextSrc t => [t.uuid]
  | .padSrc _ p => [p.uuid]
  | .devicePolygonSrc d p => [d.uuid, p.uuid]
  | .deviceCircleSrc d c => [d.uuid, c.uuid]
  | .deviceTextSrc _ t => [t.uuid]

/-- True when the copper item is a plane (used to state that quick mode
ignores planes). -/
def CopperSrc.isPlane : CopperSrc → Bool
  | .planeSrc _ => true
  | _ => false

/-- Copper item record of checkCopperCopperClearances: source object,
layer (none = through-hole via, on every layer), net signal (none = no
net), and its already inflated area. -/
structure CopperItem (A : Type) where
  src : CopperSrc
  layer : Option Layer
  netSignal : Option Nat
  areas : A

/-- Collection of copper items of checkCopperCopperClearances, in
source visiting order: per net segment its vias then its net lines;
planes (when not ignored); board polygons; board stroke texts; per
device its pads per copper layer, footprint polygons, circles, and
device stroke texts.  Items whose generator takes no offset argument
are inflated afterwards with the polygon offset operation, exactly as
in the source. -/
def collectCopperItems (g : Geom) (b : Board) (off : Int)
    (ignorePlanes : Bool) : List (CopperItem g.Area) :=
  (b.netSegments.flatMap (fun seg =>
    seg.vias.map (fun v =>
      ⟨.viaSrc v, Option.none, seg.netSignal, g.viaArea v off⟩)
    ++ seg.netLines.filterMap (fun n =>
      if n.layer ∈ b.copperLayers then
        some ⟨.netLineSrc n, some n.layer, seg.netSignal, g.netLineArea n off⟩
      else Option.none)))
  ++ (if ignorePlanes then [] else
      b.planes.filterMap (fun p =>
        if p.layer ∈ b.copperLayers then
          some ⟨.planeSrc p, some p.layer, some p.netSignal,
                g.offsetArea (g.planeArea p) off⟩
        else Option.none))
  ++ b.polygons.filterMap (fun p =>
      if p.layer ∈ b.copperLayers then
        some ⟨.boardPolygonSrc p, some p.layer, Option.none,
              g.offsetArea (g.polygonArea p) off⟩
      else Option.none)
  ++ b.strokeTexts.filterMap (fun t =>
      if t.layer ∈ b.copperLayers then
        some ⟨.boardTextSrc t, some t.layer, Option.none,
              g.strokeTextArea t off⟩
      else Option.none)
  ++ b.devices.flatMap (fun d =>
      d.pads.flatMap (fun p =>
        b.copperLayers.filterMap (fun l =>
          if p.isOnLayer l then
            some ⟨.padSrc d p, some l, p.netSignal,
                  g.padArea p d.transform l off⟩
          else Option.none))
      ++ d.footprint.polygons.filterMap (fun p =>
          if p.layer ∈ b.copperLayers then
            some ⟨.devicePolygonSrc d p, some p.layer, Option.none,
                  g.offsetArea (g.polygonAreaT p d.transform) off⟩
          else Option.none)
      ++ d.footprint.circles.filterMap (fun c =>
          if c.layer ∈ b.copperLayers then
            some ⟨.deviceCircleSrc d c, some c.layer, Option.none,
                  g.circleArea c d.transform off⟩
          else Option.none)
      ++ d.strokeTexts.filterMap (fun t =>
          if t.layer ∈ b.copperLayers then
            some ⟨.deviceTextSrc d t, some t.layer, Option.none,
                  g.strokeTextArea t off⟩
          else Option.none))

/-- Copper-copper clearance violation message
(DrcMsgCopperCopperClearanceViolation): layer, net and object identity
of both items plus the overlap locations. -/
def copperClearanceMsg {A : Type} (i1 i2 : CopperItem A)
    (locs : List PathR) : Msg :=
  ⟨.copperCopperClearance,
   [optLayerCode i1.layer, optCode i1.netSignal] ++ i1.src.refs
     ++ [optLayerCode i2.layer, optCode i2.netSignal] ++ i2.src.refs,
   locs⟩

/-- Pair test of checkCopperCopperClearances: nets differ (or either is
null) and layers are shared (a null layer is on every layer); then the
flattened intersection of the two areas must be non-empty. -/
def copperPairCheck (g : Geom) (i1 i2 : CopperItem g.Area) : Option Msg :=
  if ((i1.netSignal ≠ i2.netSignal) ∨ i1.netSignal = Option.none ∨
        i2.netSignal = Option.none) ∧
     (i1.layer = Option.none ∨ i2.layer = Option.none ∨ i1.layer = i2.layer)
  then
    let paths := g.flattenArea (g.intersectArea i1.areas i2.areas)
    if paths = [] then Option.none else some (copperClearanceMsg i1 i2 paths)
  else Option.none

/-- Inflation offset of checkCopperCopperClearances:
std::max(((clearance - maxArcTolerance()) / 2) - Length(1), Length(0));
Length division truncates toward zero. -/
def copperCopperOffset (clearance : Int) : Int :=
  max (Int.tdiv (clearance - maxArcTolerance) 2 - 1) 0

/-- Inflation amount as written in the specification sentence:
((clearance - max_arc_tolerance) / 2) - 1, without the clamp at zero
that the source applies. -/
def specCopperCopperOffset (clearance : Int) : Int :=
  Int.tdiv (clearance - maxArcTolerance) 2 - 1

/-- BoardDesignRuleCheck::checkCopperCopperClearances: early return when
the clearance setting is zero, else the pairwise overlap scan over the
collected copper items. -/
def checkCopperCopperClearances (g : Geom) (b : Board) (s : DrcSettings)
    (ignorePlanes : Bool) : List Msg :=
  if s.minCopperCopperClearance = 0 then []
  else
    pairMsgs (copperPairCheck g)
      (collectCopperItems g b (copperCopperOffset s.minCopperCopperClearance)
        ignorePlanes)

/-- Copper-copper clearance messages as the specification sentence
describes them: identical to the source check except that each item is
inflated by the unclamped amount ((clearance - max_arc_tolerance)/2) - 1.
This is the comparison target for claim C1. -/
def specCopperCopperMessages (g : Geom) (b : Board) (s : DrcSettings)
    (ignorePlanes : Bool) : List Msg :=
  if s.minCopperCopperClearance = 0 then []
  else
    pairMsgs (copperPairCheck g)
      (collectCopperItems g b
        (specCopperCopperOffset s.minCopperCopperClearance) ignorePlanes)

/-- Outline-stroke locations of a stroke text for the minimum width
check: each rendered path, mapped by the text transform, stroked at
max(strokeWidth, 50000). -/
def textOutlineLocations (g : Geom) (t : StrokeTextData) : List PathR :=
  t.paths.flatMap (fun p =>
    g.outlineStrokes (g.mapPath t.transform p) (max t.strokeWidth 50000))

/-- BoardDesignRuleCheck::checkMinimumCopperWidth: board stroke texts,
planes, device stroke texts, then net lines, each flagged when its
stroke width (or plane minimum width) is below the setting. -/
def checkMinimumCopperWidth (g : Geom) (b : Board) (s : DrcSettings) :
    List Msg :=
  if s.minCopperWidth = 0 then []
  else
    b.strokeTexts.filterMap (fun t =>
      if t.layer ∈ b.copperLayers then
        if t.strokeWidth < s.minCopperWidth then
          some ⟨.minimumWidth, [t.uuid], textOutlineLocations g t⟩
        else Option.none
      else Option.none)
    ++ b.planes.filterMap (fun p =>
      if p.layer ∈ b.copperLayers then
        if p.minWidth < s.minCopperWidth then
          some ⟨.minimumWidth, [p.uuid],
                g.outlineStrokes p.outline.toClosedPath 200000⟩
        else Option.none
      else Option.none)
    ++ b.devices.flatMap (fun d =>
      d.strokeTexts.filterMap (fun t =>
        if t.layer ∈ b.copperLayers then
          if t.strokeWidth < s.minCopperWidth then
            some ⟨.minimumWidth, [t.uuid], textOutlineLocations g t⟩
          else Option.none
        else Option.none))
    ++ b.netSegments.flatMap (fun seg =>
      seg.netLines.filterMap (fun n =>
        if n.layer ∈ b.copperLayers then
          if n.width < s.minCopperWidth then
            some ⟨.minimumWidth, [n.uuid],
                  [g.obroundPath n.startPos n.endPos n.width]⟩
          else Option.none
        else Option.none))

/-- BoardDesignRuleCheck::getBoardClearanceArea: stroke every
board-outline polygon path (board and footprint) with width
max(clearance + clearance - maxArcTolerance - 1, 1), convert and unite
with the non-zero fill rule. -/
def boardClearanceArea (g : Geom) (b : Board) (clearance : Int) : g.Area :=
  let clearanceWidth := max (clearance + clearance - maxArcTolerance - 1) 1
  g.uniteSelfNonZero (g.convertPaths (
    b.polygons.flatMap (fun p =>
      if p.layer = Layer.boardOutlines then
        g.outlineStrokes p.path clearanceWidth
      else [])
    ++ b.devices.flatMap (fun d =>
      d.footprint.polygons.flatMap (fun p =>
        if p.layer = Layer.boardOutlines then
          g.outlineStrokes (g.mapPath d.transform p.path) clearanceWidth
        else []))))

/-- BoardDesignRuleCheck::checkCopperBoardClearances: every copper
feature whose area intersects the restricted band along the board
outline is flagged. -/
def checkCopperBoardClearances (g : Geom) (b : Board) (s : DrcSettings)
    (ignorePlanes : Bool) : List Msg :=
  if s.minCopperBoardClearance = 0 then []
  else
    let restricted := boardClearanceArea g b s.minCopperBoardClearance
    let hit := fun (a : g.Area) => g.flattenArea (g.intersectArea restricted a)
    b.netSegments.flatMap (fun seg =>
      seg.vias.filterMap (fun v =>
        let locs := hit (g.viaArea v 0)
        if locs = [] then Option.none
        else some ⟨.copperBoardClearance, [v.uuid], locs⟩)
      ++ seg.netLines.filterMap (fun n =>
        let locs := hit (g.netLineArea n 0)
        if locs = [] then Option.none
        else some ⟨.copperBoardClearance, [n.uuid], locs⟩))
    ++ (if ignorePlanes then [] else
      b.planes.filterMap (fun p =>
        let locs := hit (g.planeArea p)
        if locs = [] then Option.none
        else some ⟨.copperBoardClearance, [p.uuid], locs⟩))
    ++ b.polygons.filterMap (fun p =>
      if p.layer ∈ b.copperLayers then
        let locs := hit (g.polygonArea p)
        if locs = [] then Option.none
        else some ⟨.copperBoardClearance, [0, p.uuid], locs⟩
      else Option.none)
    ++ b.strokeTexts.filterMap (fun t =>
      if t.layer ∈ b.copperLayers then
        let locs := hit (g.strokeTextArea t 0)
        if locs = [] then Option.none
        else some ⟨.copperBoardClearance, [0, t.uuid], locs⟩
      else Option.none)
    ++ b.devices.flatMap (fun d =>
      d.pads.flatMap (fun p =>
        b.copperLayers.filterMap (fun l =>
          if p.isOnLayer l then
            let locs := hit (g.padArea p d.transform l 0)
            if locs = [] then Option.none
            else some ⟨.copperBoardClearance, [p.uuid], locs⟩
          else Option.none))
      ++ d.footprint.polygons.filterMap (fun p =>
        if p.layer ∈ b.copperLayers then
          let locs := hit (g.polygonAreaT p d.transform)
          if locs = [] then Option.none
          else some ⟨.copperBoardClearance, [d.uuid, p.uuid], locs⟩
        else Option.none)
      ++ d.footprint.circles.filterMap (fun c =>
        if c.layer ∈ b.copperLayers then
          let locs := hit (g.circleArea c d.transform 0)
          if locs = [] then Option.none
          else some ⟨.copperBoardClearance, [d.uuid, c.uuid], locs⟩
        else Option.none)
      ++ d.strokeTexts.filterMap (fun t =>
        if t.layer ∈ b.copperLayers then
          let locs := hit (g.strokeTextArea t 0)
          if locs = [] then Option.none
          else some ⟨.copperBoardClearance, [d.uuid, t.uuid], locs⟩
        else Option.none))

/-- BoardDesignRuleCheck::checkCopperHoleClearances: union the copper of
all copper layers, inflate each hole by clearance - maxArcTolerance - 1,
and flag non-empty intersections. -/
def checkCopperHoleClearances (g : Geom) (b : Board) (s : DrcSettings)
    (ignorePlanes : Bool) : List Msg :=
  if s.minCopperNpthClearance = 0 then []
  else
    let copperAreas := b.copperLayers.foldl
      (fun acc l => g.uniteArea acc (g.copperOnLayer b l ignorePlanes))
      g.emptyArea
    let hit := fun (h : HoleData) (tr : Transform) =>
      g.flattenArea (g.intersectArea copperAreas
        (g.holeArea h tr (s.minCopperNpthClearance - maxArcTolerance - 1)))
    b.holes.filterMap (fun h =>
      let locs := hit h Transform.identity
      if locs = [] then Option.none
      else some ⟨.copperHoleClearance, [0, h.uuid], locs⟩)
    ++ b.devices.flatMap (fun d =>
      d.footprint.holes.filterMap (fun h =>
        let locs := hit h d.transform
        if locs = [] then Option.none
        else some ⟨.copperHoleClearance, [d.uuid, h.uuid], locs⟩))

/-- Drill item of checkDrillDrillClearances: owning item uuid, hole
uuid, and the expanded drill area. -/
structure DrillItem (A : Type) where
  itemUuid : Nat
  holeUuid : Nat
  areas : A

/-- Diameter expansion of checkDrillDrillClearances:
std::max(clearance - maxArcTolerance() - 1, Length(0)). -/
def drillExpansion (clearance : Int) : Int :=
  max (clearance - maxArcTolerance - 1) 0

/-- Collection of drills of checkDrillDrillClearances, in source
visiting order: vias per net segment, board holes, then per device the
pad holes and footprint holes; each drill area is the outline stroke of
its path at diameter + expansion. -/
def collectDrillItems (g : Geom) (b : Board) (expansion : Int) :
    List (DrillItem g.Area) :=
  b.netSegments.flatMap (fun seg =>
    seg.vias.map (fun v =>
      ⟨v.uuid, v.uuid, g.strokeArea (pointPath v.pos) (v.drill + expansion)⟩))
  ++ b.holes.map (fun h =>
    ⟨h.uuid, h.uuid, g.strokeArea h.path (h.diameter + expansion)⟩)
  ++ b.devices.flatMap (fun d =>
    d.pads.flatMap (fun p =>
      p.holes.map (fun h =>
        ⟨p.uuid, h.uuid,
         g.strokeArea (g.mapPath d.transform (g.mapPath p.libTransform h.path))
           (h.diameter + expansion)⟩))
    ++ d.footprint.holes.map (fun h =>
      ⟨d.uuid, h.uuid,
       g.strokeArea (g.mapPath d.transform h.path) (h.diameter + expansion)⟩))

/-- Pair test of checkDrillDrillClearances: flag when the flattened
intersection of the two expanded drill areas is non-empty. -/
def drillPairCheck (g : Geom) (i1 i2 : DrillItem g.Area) : Option Msg :=
  let paths := g.flattenArea (g.intersectArea i1.areas i2.areas)
  if paths = [] then Option.none
  else some ⟨.drillDrillClearance,
             [i1.itemUuid, i1.holeUuid, i2.itemUuid, i2.holeUuid], paths⟩

/-- BoardDesignRuleCheck::checkDrillDrillClearances. -/
def checkDrillDrillClearances (g : Geom) (b : Board) (s : DrcSettings) :
    List Msg :=
  if s.minDrillDrillClearance = 0 then []
  else
    pairMsgs (drillPairCheck g)
      (collectDrillItems g b (drillExpansion s.minDrillDrillClearance))

/-- BoardDesignRuleCheck::checkDrillBoardClearances: drills intersecting
the restricted band along the board outline are flagged. -/
def checkDrillBoardClearances (g : Geom) (b : Board) (s : DrcSettings) :
    List Msg :=
  if s.minDrillBoardClearance = 0 then []
  else
    let restricted := boardClearanceArea g b s.minDrillBoardClearance
    let hit := fun (path : PathR) (diameter : Int) =>
      g.flattenArea (g.intersectArea restricted (g.strokeArea path diameter))
    b.netSegments.flatMap (fun seg =>
      seg.vias.filterMap (fun v =>
        let locs := hit (pointPath v.pos) v.drill
        if locs = [] then Option.none
        else some ⟨.drillBoardClearance, [v.uuid], locs⟩))
    ++ b.holes.filterMap (fun h =>
      let locs := hit h.path h.diameter
      if locs = [] then Option.none
      else some ⟨.drillBoardClearance, [0, h.uuid], locs⟩)
    ++ b.devices.flatMap (fun d =>
      d.pads.flatMap (fun p =>
        p.holes.filterMap (fun h =>
          let locs := hit
            (g.mapPath d.transform (g.mapPath p.libTransform h.path))
            h.diameter
          if locs = [] then Option.none
          else some ⟨.drillBoardClearance, [p.uuid, h.uuid], locs⟩))
      ++ d.footprint.holes.filterMap (fun h =>
        let locs := hit (g.mapPath d.transform h.path) h.diameter
        if locs = [] then Option.none
        else some ⟨.drillBoardClearance, [d.uuid, h.uuid], locs⟩))

/-- Test diameter of the minimum annular ring check:
drill diameter + annular width * 2 - 1 (the expression
via->getDrillDiameter() + (*annularWidth * 2) - 1 of the source). -/
def annularTestDiameter (drill ringWidth : Int) : Int :=
  drill + ringWidth * 2 - 1

/-- Copper present on all copper layers at once (the intersection of
the per-layer copper paths, kept as ring paths), as computed at the top
of checkMinimumPthAnnularRing. -/
def thtCopperAreaPaths (g : Geom) (b : Board) (ignorePlanes : Bool) :
    g.Area :=
  g.ringPaths (g.intersectAll
    (b.copperLayers.map (fun l => g.copperOnLayer b l ignorePlanes)))

/-- Hole areas of one pad including the minimum annular ring: per pad
hole, skipped when the test diameter is not positive, else the united
outline strokes of the hole path at that diameter, mapped by the global
pad transform. -/
def padAnnularAreas (g : Geom) (p : Pad) (w : Int) : g.Area :=
  p.holes.foldl (fun acc h =>
    let d := annularTestDiameter h.diameter w
    if d ≤ 0 then acc
    else (g.outlineStrokes h.path d).foldl (fun acc2 a =>
      g.uniteArea acc2 (g.pathArea (g.mapPath p.transform a))) acc)
    g.emptyArea

/-- BoardDesignRuleCheck::checkMinimumPthAnnularRing: a via or pad whose
inflated hole area is not fully covered by the copper common to all
layers is flagged with the uncovered portion as location. -/
def checkMinimumPthAnnularRing (g : Geom) (b : Board) (s : DrcSettings)
    (ignorePlanes : Bool) : List Msg :=
  if s.minPthAnnularRing = 0 then []
  else
    let tht := thtCopperAreaPaths g b ignorePlanes
    b.netSegments.flatMap (fun seg =>
      seg.vias.filterMap (fun v =>
        let d := annularTestDiameter v.drill s.minPthAnnularRing
        if d ≤ 0 then Option.none
        else
          let areas := g.pathArea (g.circlePathAt d v.pos)
          let remaining := g.flattenArea (g.subtractArea areas tht)
          if remaining = [] then Option.none
          else some ⟨.minimumAnnularRing, [v.uuid], remaining⟩))
    ++ b.devices.flatMap (fun dev =>
      dev.pads.filterMap (fun p =>
        let areas := padAnnularAreas g p s.minPthAnnularRing
        let remaining := g.flattenArea (g.subtractArea areas tht)
        if remaining = [] then Option.none
        else some ⟨.minimumAnnularRing, [p.uuid], remaining⟩))

/-- Pad hole areas of the annular ring check without the skip branch
for a non-positive test diameter (comparison target of claim C10). -/
def padAnnularAreasTotal (g : Geom) (p : Pad) (w : Int) : g.Area :=
  p.holes.foldl (fun acc h =>
    let d := annularTestDiameter h.diameter w
    (g.outlineStrokes h.path d).foldl (fun acc2 a =>
      g.uniteArea acc2 (g.pathArea (g.mapPath p.transform a))) acc)
    g.emptyArea

/-- Annular ring check without the skip branches for a non-positive
test diameter: every via and every pad hole is tested (comparison
target of claim C10). -/
def checkMinimumPthAnnularRingTotal (g : Geom) (b : Board)
    (s : DrcSettings) (ignorePlanes : Bool) : List Msg :=
  if s.minPthAnnularRing = 0 then []
  else
    let tht := thtCopperAreaPaths g b ignorePlanes
    b.netSegments.flatMap (fun seg =>
      seg.vias.filterMap (fun v =>
        let d := annularTestDiameter v.drill s.minPthAnnularRing
        let areas := g.pathArea (g.circlePathAt d v.pos)
        let remaining := g.flattenArea (g.subtractArea areas tht)
        if remaining = [] then Option.none
        else some ⟨.minimumAnnularRing, [v.uuid], remaining⟩))
    ++ b.devices.flatMap (fun dev =>
      dev.pads.filterMap (fun p =>
        let areas := padAnnularAreasTotal g p s.minPthAnnularRing
        let remaining := g.flattenArea (g.subtractArea areas tht)
        if remaining = [] then Option.none
        else some ⟨.minimumAnnularRing, [p.uuid], remaining⟩))

/-- Modelled from the spec: a hole is a slot when its drill path has at
least two vertices (a round drill has a 1-vertex path; Hole::isSlot is
not under src/). -/
def slotPath (p : PathR) : Bool := 2 ≤ p.vertices.length

/-- Modelled from the spec: a multi-segment slot has at least three
vertices (Hole::isMultiSegmentSlot is not under src/). -/
def multiSegmentSlotPath (p : PathR) : Bool := 3 ≤ p.vertices.length

/-- Modelled from the spec: a curved slot has an arc vertex; the sweep
of the last vertex describes no edge and therefore does not count
(Hole::isCurvedSlot is not under src/). -/
def curvedSlotPath (p : PathR) : Bool :=
  p.vertices.dropLast.any (fun v => v.sweep ≠ 0)

/-- Hole::isSlot. -/
def HoleData.isSlot (h : HoleData) : Bool := slotPath h.path

/-- PadHole::isSlot. -/
def PadHoleData.isSlot (h : PadHoleData) : Bool := slotPath h.path

/-- BoardDesignRuleCheck::getHoleLocation: outline strokes of the hole
path at the hole diameter, mapped by the two transforms. -/
def getHoleLocation (g : Geom) (path : PathR) (diameter : Int)
    (tr1 tr2 : Transform) : List PathR :=
  (g.outlineStrokes (g.mapPath tr1 path) diameter).map (g.mapPath tr2)

/-- BoardDesignRuleCheck::checkMinimumNpthDrillDiameter: non-slot board
and footprint holes with a diameter below the setting. -/
def checkMinimumNpthDrillDiameter (g : Geom) (b : Board)
    (s : DrcSettings) : List Msg :=
  if s.minNpthDrillDiameter = 0 then []
  else
    b.holes.filterMap (fun h =>
      if (¬ h.isSlot) ∧ h.diameter < s.minNpthDrillDiameter then
        some ⟨.minimumDrillDiameter, [0, h.uuid],
              getHoleLocation g h.path h.diameter Transform.identity
                Transform.identity⟩
      else Option.none)
    ++ b.devices.flatMap (fun d =>
      d.footprint.holes.filterMap (fun h =>
        if (¬ h.isSlot) ∧ h.diameter < s.minNpthDrillDiameter then
          some ⟨.minimumDrillDiameter, [d.uuid, h.uuid],
                getHoleLocation g h.path h.diameter d.transform
                  Transform.identity⟩
        else Option.none))

/-- BoardDesignRuleCheck::checkMinimumNpthSlotWidth: slotted board and
footprint holes with a diameter (slot width) below the setting. -/
def checkMinimumNpthSlotWidth (g : Geom) (b : Board) (s : DrcSettings) :
    List Msg :=
  if s.minNpthSlotWidth = 0 then []
  else
    b.holes.filterMap (fun h =>
      if h.isSlot ∧ h.diameter < s.minNpthSlotWidth then
        some ⟨.minimumSlotWidth, [0, h.uuid],
              getHoleLocation g h.path h.diameter Transform.identity
                Transform.identity⟩
      else Option.none)
    ++ b.devices.flatMap (fun d =>
      d.footprint.holes.filterMap (fun h =>
        if h.isSlot ∧ h.diameter < s.minNpthSlotWidth then
          some ⟨.minimumSlotWidth, [d.uuid, h.uuid],
                getHoleLocation g h.path h.diameter d.transform
                  Transform.identity⟩
        else Option.none))

/-- BoardDesignRuleCheck::checkMinimumPthDrillDiameter: via drills and
pad holes with a diameter below the setting. -/
def checkMinimumPthDrillDiameter (g : Geom) (b : Board)
    (s : DrcSettings) : List Msg :=
  if s.minPthDrillDiameter = 0 then []
  else
    b.netSegments.flatMap (fun seg =>
      seg.vias.filterMap (fun v =>
        if v.drill < s.minPthDrillDiameter then
          some ⟨.minimumDrillDiameter, [v.uuid],
                [g.circlePathAt v.drill v.pos]⟩
        else Option.none))
    ++ b.devices.flatMap (fun d =>
      d.pads.flatMap (fun p =>
        p.holes.filterMap (fun h =>
          if h.diameter < s.minPthDrillDiameter then
            some ⟨.minimumDrillDiameter, [p.uuid, h.uuid],
                  [g.circlePathAt (max h.diameter 50000) p.pos]⟩
          else Option.none)))

/-- BoardDesignRuleCheck::checkMinimumPthSlotWidth: slotted pad holes
with a diameter (slot width) below the setting. -/
def checkMinimumPthSlotWidth (g : Geom) (b : Board) (s : DrcSettings) :
    List Msg :=
  if s.minPthSlotWidth = 0 then []
  else
    b.devices.flatMap (fun d =>
      d.pads.flatMap (fun p =>
        p.holes.filterMap (fun h =>
          if h.isSlot ∧ h.diameter < s.minPthSlotWidth then
            some ⟨.minimumSlotWidth, [p.uuid, h.uuid],
                  getHoleLocation g h.path h.diameter p.libTransform
                    d.transform⟩
          else Option.none)))

/-- BoardDesignRuleCheck::requiresHoleSlotWarning: the if-chain over the
slot classification predicates, comparing the allowance with the enum
order of AllowedSlots. -/
def requiresHoleSlotWarning (p : PathR) (allowed : AllowedSlots) : Bool :=
  if curvedSlotPath p ∧ allowed.rank < AllowedSlots.any.rank then true
  else if multiSegmentSlotPath p ∧
      allowed.rank < AllowedSlots.multiSegmentStraight.rank then true
  else if slotPath p ∧
      allowed.rank < AllowedSlots.singleSegmentStraight.rank then true
  else false

/-- BoardDesignRuleCheck::checkAllowedNpthSlots: board and footprint
holes needing a slot warning under the configured allowance. -/
def checkAllowedNpthSlots (g : Geom) (b : Board) (s : DrcSettings) :
    List Msg :=
  if s.allowedNpthSlots = AllowedSlots.any then []
  else
    b.holes.filterMap (fun h =>
      if requiresHoleSlotWarning h.path s.allowedNpthSlots then
        some ⟨.forbiddenSlot, [h.uuid],
              getHoleLocation g h.path h.diameter Transform.identity
                Transform.identity⟩
      else Option.none)
    ++ b.devices.flatMap (fun d =>
      d.footprint.holes.filterMap (fun h =>
        if requiresHoleSlotWarning h.path s.allowedNpthSlots then
          some ⟨.forbiddenSlot, [d.uuid, h.uuid],
                getHoleLocation g h.path h.diameter d.transform
                  Transform.identity⟩
        else Option.none))

/-- BoardDesignRuleCheck::checkAllowedPthSlots: pad holes needing a slot
warning under the configured allowance. -/
def checkAllowedPthSlots (g : Geom) (b : Board) (s : DrcSettings) :
    List Msg :=
  if s.allowedPthSlots = AllowedSlots.any then []
  else
    b.devices.flatMap (fun d =>
      d.pads.flatMap (fun p =>
        p.holes.filterMap (fun h =>
          if requiresHoleSlotWarning h.path s.allowedPthSlots then
            some ⟨.forbiddenSlot, [p.uuid, h.uuid],
                  getHoleLocation g h.path h.diameter p.libTransform
                    d.transform⟩
          else Option.none)))

/-- BoardDesignRuleCheck::checkInvalidPadConnections: for each layer
with a net line attached to the pad, some pad geometry on that layer
must cover the pad origin, else the pad is flagged. -/
def checkInvalidPadConnections (g : Geom) (b : Board) : List Msg :=
  b.devices.flatMap (fun d =>
    d.pads.flatMap (fun p =>
      p.connectedNetLineLayers.filterMap (fun l =>
        if (p.geometriesOn l).any g.padGeomCoversOrigin then Option.none
        else some ⟨.invalidPadConnection, [p.uuid, layerCode l],
                   [g.circlePathAt 500000 p.pos]⟩)))

/-- BoardDesignRuleCheck::getDeviceCourtyardPaths: united polygon and
circle drawings of the footprint on the requested (mirror-mapped)
layer; as in the source, circles are united without translation to
their center. -/
def deviceCourtyardPaths (g : Geom) (d : Device) (l : Layer) : g.Area :=
  let withPolys := d.footprint.polygons.foldl (fun acc p =>
    if d.transform.mapLayer p.layer = l then
      g.uniteArea acc (g.pathArea (g.mapPath d.transform p.path))
    else acc) g.emptyArea
  d.footprint.circles.foldl (fun acc c =>
    if d.transform.mapLayer c.layer = l then
      g.uniteArea acc (g.pathArea (g.circlePathAt c.diameter ⟨0, 0⟩))
    else acc) withPolys

/-- Pair test of checkCourtyardClearances: overlapping device courtyard
areas are flagged. -/
def courtyardPairCheck (g : Geom) (x y : Device × g.Area) : Option Msg :=
  let locs := g.flattenArea (g.intersectArea x.snd y.snd)
  if locs = [] then Option.none
  else some ⟨.courtyardOverlap, [x.fst.uuid, y.fst.uuid], locs⟩

/-- BoardDesignRuleCheck::checkCourtyardClearances: per courtyard layer
the pairwise overlap scan over the device courtyard areas. -/
def checkCourtyardClearances (g : Geom) (b : Board) : List Msg :=
  [Layer.topCourtyard, Layer.botCourtyard].flatMap (fun l =>
    pairMsgs (courtyardPairCheck g)
      (b.devices.map (fun d => (d, deviceCourtyardPaths g d l))))

/-- BoardDesignRuleCheck::checkBoardOutline: open footprint outline
polygons, a missing outline, multiple independent outlines, and the
minimum inner radius residue of the outline offset round trip. -/
def checkBoardOutline (g : Geom) (b : Board) (s : DrcSettings) :
    List Msg :=
  let openMsgs := b.devices.flatMap (fun d =>
    d.footprint.polygons.filterMap (fun p =>
      if p.layer = Layer.boardOutlines then
        let path := g.mapPath d.transform p.path
        if path.isClosed then Option.none
        else some ⟨.openBoardOutlinePolygon, [d.uuid, p.uuid],
                   g.outlineStrokes path (max p.lineWidth 100000)⟩
      else Option.none))
  let outlines := b.polygons.filterMap (fun p =>
      if p.layer = Layer.boardOutlines then some p.path else Option.none)
    ++ b.devices.flatMap (fun d =>
      d.footprint.polygons.filterMap (fun p =>
        if p.layer = Layer.boardOutlines then
          some (g.mapPath d.transform p.path)
        else Option.none)
      ++ d.footprint.circles.filterMap (fun c =>
        if c.layer = Layer.boardOutlines then
          some (g.circlePathAt c.diameter (g.mapPoint d.transform c.center))
        else Option.none))
  let missingMsgs :=
    if outlines = [] then [(⟨.missingBoardOutline, [], []⟩ : Msg)] else []
  let drawnTree := g.uniteEvenOdd outlines
  let flattened := g.flattenArea drawnTree
  let multipleMsgs :=
    if 1 < flattened.length then
      [(⟨.multipleBoardOutlines, [], flattened⟩ : Msg)]
    else []
  let minEdgeRadius := Int.tdiv s.minOutlineToolDiameter 2
  let radiusMsgs :=
    if 0 < minEdgeRadius then
      let offset1 := max (minEdgeRadius - 10000) 0
      let offset2 := -minEdgeRadius
      let drawnBoardArea := g.ringPaths drawnTree
      let nonManufacturable :=
        g.offsetArea (g.offsetArea drawnBoardArea offset1) offset2
      let residue := g.flattenArea
        (g.subtractArea nonManufacturable drawnBoardArea)
      if residue = [] then []
      else [(⟨.minimumBoardOutlineInnerRadius, [], residue⟩ : Msg)]
    else []
  openMsgs ++ missingMsgs ++ multipleMsgs ++ radiusMsgs

/-- BoardDesignRuleCheck::checkForUnplacedComponents: component
instances that are not schematic-only and have no device on the board. -/
def checkForUnplacedComponents (b : Board) : List Msg :=
  b.componentInstances.filterMap (fun c =>
    match b.deviceByComponentUuid c.uuid with
    | some _ => Option.none
    | Option.none =>
      if c.schematicOnly then Option.none
      else some ⟨.missingDevice, [c.uuid], []⟩)

/-- Documentation or placement drawings of a device on one layer, as
collected by the addDrawing helper of getDeviceLocation. -/
def deviceDrawingLocations (g : Geom) (d : Device) (l : Layer) :
    List PathR :=
  d.footprint.polygons.flatMap (fun p =>
    if p.layer = l then
      let path := g.mapPath d.transform p.path
      (if 0 < p.lineWidth then g.outlineStrokes path p.lineWidth else [])
      ++ (if path.isClosed ∧ p.filled then [path] else [])
    else [])
  ++ d.footprint.circles.flatMap (fun c =>
    if c.layer = l then
      let path := g.mapPath d.transform
        ((g.circlePathAt c.diameter ⟨0, 0⟩).translated c.center)
      (if 0 < c.lineWidth then g.outlineStrokes path c.lineWidth else [])
      ++ (if path.isClosed ∧ c.filled then [path] else [])
    else [])

/-- Origin line of getDeviceLocation: a horizontal 1 mm segment. -/
def originLine : PathR :=
  ⟨[⟨⟨-500000, 0⟩, 0⟩, ⟨⟨500000, 0⟩, 0⟩]⟩

/-- BoardDesignRuleCheck::getDeviceLocation: documentation drawings,
else placement drawings, plus the origin cross. -/
def getDeviceLocation (g : Geom) (d : Device) : List PathR :=
  let docs := deviceDrawingLocations g d Layer.topDocumentation
    ++ deviceDrawingLocations g d Layer.botDocumentation
  let base :=
    if docs = [] then
      deviceDrawingLocations g d Layer.topPlacement
      ++ deviceDrawingLocations g d Layer.botPlacement
    else docs
  base
  ++ g.outlineStrokes (originLine.translated d.pos) 50000
  ++ g.outlineStrokes (originLine.rotated90.translated d.pos) 50000

/-- BoardDesignRuleCheck::checkCircuitDefaultDevices: devices whose
library device differs from the default device configured on their
component instance. -/
def checkCircuitDefaultDevices (g : Geom) (b : Board) : List Msg :=
  b.devices.filterMap (fun d =>
    match b.componentInstances.find? (fun c => c.uuid = d.cmpUuid) with
    | Option.none => Option.none
    | some c =>
      match c.defaultDevice with
      | Option.none => Option.none
      | some u =>
        if u ≠ d.libDeviceUuid then
          some ⟨.defaultDeviceMismatch, [d.cmpUuid], getDeviceLocation g d⟩
        else Option.none)

/-- BoardDesignRuleCheck::checkForMissingConnections: one message per
air wire remaining after the air wire rebuild (the airWires field holds
the rebuilt list). -/
def checkForMissingConnections (g : Geom) (b : Board) : List Msg :=
  b.airWires.map (fun w =>
    ⟨.missingConnection, [w.netSignal], [g.obroundPath w.p1 w.p2 50000]⟩)

/-- BoardDesignRuleCheck::checkForStaleObjects: empty net segments and
unconnected net points. -/
def checkForStaleObjects (g : Geom) (b : Board) : List Msg :=
  b.netSegments.flatMap (fun seg =>
    (if seg.used then [] else [(⟨.emptyNetSegment, [seg.uuid], []⟩ : Msg)])
    ++ seg.netPoints.filterMap (fun np =>
      if np.used then Option.none
      else some ⟨.unconnectedJunction, [np.uuid],
                 [g.circlePathAt 300000 np.pos]⟩))

/-- Identifier of each check routine, in the call order of execute. -/
inductive CheckId where
  | copperWidth
  | copperCopper
  | copperBoard
  | copperHole
  | drillDrill
  | drillBoard
  | pthAnnularRing
  | npthDrillDiameter
  | npthSlotWidth
  | pthDrillDiameter
  | pthSlotWidth
  | npthSlots
  | pthSlots
  | padConnections
  | courtyard
  | boardOutlineCheck
  | unplacedComponents
  | defaultDevices
  | missingConnections
  | staleObjects
deriving DecidableEq, Repr

/-- Entry of the recorded status log (mProgressStatus): the status text
emitted by a check, by the plane rebuild, or the final summary line of
execute. -/
inductive StatusTag where
  | rebuildPlanes
  | check (c : CheckId)
  | finished
deriving DecidableEq, Repr

/-- Progress checkpoint passed to each check by execute. -/
def progressEnd : CheckId → Int
  | .copperWidth => 14
  | .copperCopper => 24
  | .copperBoard => 34
  | .copperHole => 44
  | .drillDrill => 49
  | .drillBoard => 54
  | .pthAnnularRing => 64
  | .npthDrillDiameter => 66
  | .npthSlotWidth => 68
  | .pthDrillDiameter => 70
  | .pthSlotWidth => 72
  | .npthSlots => 74
  | .pthSlots => 76
  | .padConnections => 78
  | .courtyard => 88
  | .boardOutlineCheck => 91
  | .unplacedComponents => 92
  | .defaultDevices => 93
  | .missingConnections => 95
  | .staleObjects => 97

/-- Guard of each check: false exactly when the check returns before
emitting its status (setting = 0, or allowed slots = Any); checks
without a guard always run. -/
def checkEnabled (s : DrcSettings) : CheckId → Bool
  | .copperWidth => decide (s.minCopperWidth ≠ 0)
  | .copperCopper => decide (s.minCopperCopperClearance ≠ 0)
  | .copperBoard => decide (s.minCopperBoardClearance ≠ 0)
  | .copperHole => decide (s.minCopperNpthClearance ≠ 0)
  | .drillDrill => decide (s.minDrillDrillClearance ≠ 0)
  | .drillBoard => decide (s.minDrillBoardClearance ≠ 0)
  | .pthAnnularRing => decide (s.minPthAnnularRing ≠ 0)
  | .npthDrillDiameter => decide (s.minNpthDrillDiameter ≠ 0)
  | .npthSlotWidth => decide (s.minNpthSlotWidth ≠ 0)
  | .pthDrillDiameter => decide (s.minPthDrillDiameter ≠ 0)
  | .pthSlotWidth => decide (s.minPthSlotWidth ≠ 0)
  | .npthSlots => decide (s.allowedNpthSlots ≠ AllowedSlots.any)
  | .pthSlots => decide (s.allowedPthSlots ≠ AllowedSlots.any)
  | .padConnections => true
  | .courtyard => true
  | .boardOutlineCheck => true
  | .unplacedComponents => true
  | .defaultDevices => true
  | .missingConnections => true
  | .staleObjects => true

/-- Observable effects of one check invocation: the status entries,
progress checkpoints and messages it emits. -/
structure CheckRun where
  status : List StatusTag
  progress : List Int
  messages : List Msg
deriving DecidableEq, Repr

/-- One check invocation of execute: a disabled check returns before
emitting anything (the guard below mirrors the early return of the
check body); an enabled check emits its status line, its messages, and
its final progress checkpoint. -/
def runCheck (g : Geom) (b : Board) (s : DrcSettings) (quick : Bool)
    (c : CheckId) : CheckRun :=
  if checkEnabled s c then
    ⟨[.check c], [progressEnd c],
     match c with
     | .copperWidth => checkMinimumCopperWidth g b s
     | .copperCopper => checkCopperCopperClearances g b s quick
     | .copperBoard => checkCopperBoardClearances g b s quick
     | .copperHole => checkCopperHoleClearances g b s quick
     | .drillDrill => checkDrillDrillClearances g b s
     | .drillBoard => checkDrillBoardClearances g b s
     | .pthAnnularRing => checkMinimumPthAnnularRing g b s quick
     | .npthDrillDiameter => checkMinimumNpthDrillDiameter g b s
     | .npthSlotWidth => checkMinimumNpthSlotWidth g b s
     | .pthDrillDiameter => checkMinimumPthDrillDiameter g b s
     | .pthSlotWidth => checkMinimumPthSlotWidth g b s
     | .npthSlots => checkAllowedNpthSlots g b s
     | .pthSlots => checkAllowedPthSlots g b s
     | .padConnections => checkInvalidPadConnections g b
     | .courtyard => checkCourtyardClearances g b
     | .boardOutlineCheck => checkBoardOutline g b s
     | .unplacedComponents => checkForUnplacedComponents b
     | .defaultDevices => checkCircuitDefaultDevices g b
     | .missingConnections => checkForMissingConnections g b
     | .staleObjects => checkForStaleObjects g b⟩
  else ⟨[], [], []⟩

/-- Check order of execute: the four quick checks, then — only when not
quick — the sixteen remaining checks. -/
def drcCheckOrder (quick : Bool) : List CheckId :=
  [.copperWidth, .copperCopper, .copperBoard, .copperHole]
  ++ (if quick then [] else
    [.drillDrill, .drillBoard, .pthAnnularRing, .npthDrillDiameter,
     .npthSlotWidth, .pthDrillDiameter, .pthSlotWidth, .npthSlots,
     .pthSlots, .padConnections, .courtyard, .boardOutlineCheck,
     .unplacedComponents, .defaultDevices, .missingConnections,
     .staleObjects])

/-- Sequence of run segments of execute: the plane rebuild (status plus
progress 12, only when not quick) followed by the checks in order. -/
def drcRuns (g : Geom) (b : Board) (s : DrcSettings) (quick : Bool) :
    List CheckRun :=
  (if quick then [] else [⟨[.rebuildPlanes], [12], []⟩])
  ++ (drcCheckOrder quick).map (runCheck g b s quick)

/-- Observable trace of one execute call: whether planes were rebuilt,
the emitted progress percentages (2 at the start, then the checkpoints
of the segments that ran, then 100), the recorded status log, and the
emitted messages in emission order. -/
structure DrcTrace where
  rebuiltPlanes : Bool
  progress : List Int
  statusLog : List StatusTag
  messages : List Msg
deriving DecidableEq, Repr

/-- BoardDesignRuleCheck::execute as a trace function. -/
def executeTrace (g : Geom) (b : Board) (s : DrcSettings) (quick : Bool) :
    DrcTrace :=
  { rebuiltPlanes := !quick
  , progress := 2 :: ((drcRuns g b s quick).flatMap (·.progress) ++ [100])
  , statusLog := (drcRuns g b s quick).flatMap (·.status) ++ [.finished]
  , messages := (drcRuns g b s quick).flatMap (·.messages) }

/-- Mutable engine fields touched by execute (mIgnorePlanes,
mProgressPercent, mProgressStatus, mMessages). -/
structure EngineState where
  ignorePlanes : Bool
  progressPercent : Int
  statusLog : List StatusTag
  messages : List Msg
deriving DecidableEq, Repr

/-- Effect of one run segment on the engine state: emitStatus and
emitMessage append, emitProgress overwrites the percentage. -/
def applyRun (st : EngineState) (r : CheckRun) : EngineState :=
  { st with
    statusLog := st.statusLog ++ r.status
    messages := st.messages ++ r.messages
    progressPercent := (r.progress.getLast?).getD st.progressPercent }

/-- BoardDesignRuleCheck::execute as a state transformer, mirroring the
source line by line: emit progress 2, store the quick flag, clear the
status log and the message list, run the segments, then append the
final summary status and set progress 100. -/
def executeOn (g : Geom) (b : Board) (s : DrcSettings) (quick : Bool)
    (st : EngineState) : EngineState :=
  let st1 := { st with progressPercent := 2 }
  let st2 := { st1 with
    ignorePlanes := quick, statusLog := ([] : List StatusTag),
    messages := ([] : List Msg) }
  let st3 := (drcRuns g b s quick).foldl applyRun st2
  { st3 with statusLog := st3.statusLog ++ [.finished],
             progressPercent := 100 }

/-- Geometry failures of the polygon algebra (spec section 7: degenerate
geometry or numeric overflow raised as exceptions by the geometry
layer). -/
inductive GeomError where
  | degeneratePath
  | numericOverflow
deriving DecidableEq, Repr

/-- Sequencing of fallible run steps without any handler: the first
failure aborts the rest and is returned unchanged (exception
propagation through a function body that contains no try/catch). -/
def runSteps (steps : List (Except GeomError (List Msg))) :
    Except GeomError (List Msg) :=
  match steps with
  | [] => .ok []
  | x :: xs =>
    match x with
    | .error e => .error e
    | .ok m =>
      match runSteps xs with
      | .error e => .error e
      | .ok rest => .ok (m ++ rest)

/-- Exception flow of BoardDesignRuleCheck::execute: the body (lines
83 to 124 of the source) contains no try/catch, so a geometry exception
thrown by the plane rebuild or by any check leaves execute unchanged.
The rebuild and the individual checks are abstracted as fallible steps
because every check calls into the fallible polygon algebra. -/
def executeExcept (rebuild : Except GeomError Unit)
    (firstFour rest : List (Except GeomError (List Msg)))
    (quick : Bool) : Except GeomError (List Msg) :=
  match (if quick then Except.ok () else rebuild) with
  | .error e => .error e
  | .ok _ => runSteps (firstFour ++ if quick then [] else rest)

/-- True when an Except value carries a result, not an error. -/
def exceptOk {ε α : Type} : Except ε α → Bool
  | .ok _ => true
  | .error _ => false

/-- Severity of a rule check message (spec message envelope). -/
inductive Severity where
  | hint
  | warning
  | error
deriving DecidableEq, Repr

/-- Numeric rank of a severity (Hint < Warning < Error). -/
def Severity.rank : Severity → Nat
  | .hint => 0
  | .warning => 1
  | .error => 2

/-- Modelled from the spec: the message envelope consumed by approval
resolution (section 4.H, not under src/) — severity, localized message
text (an abstract linearly ordered value) and the canonical approval
key (an abstract value with decidable equality). -/
structure EnvMsg (κ : Type) (τ : Type) where
  severity : Severity
  text : τ
  approvalKey : κ
deriving DecidableEq, Repr

/-- Modelled from the spec (section 4.H): approval resolution walks the
emitted messages; a message is approved exactly when its approval key
lies in the approved set; the result is the approved count together
with the remaining messages in emission order. -/
def resolveApprovals {κ τ : Type} [DecidableEq κ]
    (msgs : List (EnvMsg κ τ)) (approved : List κ) :
    Nat × List (EnvMsg κ τ) :=
  match msgs with
  | [] => (0, [])
  | m :: ms =>
    let r := resolveApprovals ms approved
    if m.approvalKey ∈ approved then (r.fst + 1, r.snd)
    else (r.fst, m :: r.snd)

/-- Modelled from the spec: presentation order of messages — severity
descending, and for equal severity localized text ascending. -/
def presentLE {κ τ : Type} [LinearOrder τ] (a b : EnvMsg κ τ) : Prop :=
  b.severity.rank < a.severity.rank ∨
    (a.severity.rank = b.severity.rank ∧ a.text ≤ b.text)

instance {κ τ : Type} [LinearOrder τ] :
    DecidableRel (@presentLE κ τ _) := fun a b => by
  unfold presentLE; infer_instance

instance {κ τ : Type} [LinearOrder τ] :
    IsTotal (EnvMsg κ τ) presentLE := by
  constructor
  intro a b
  rcases lt_trichotomy a.severity.rank b.severity.rank with h | h | h
  · exact Or.inr (Or.inl h)
  · rcases le_total a.text b.text with ht | ht
    · exact Or.inl (Or.inr ⟨h, ht⟩)
    · exact Or.inr (Or.inr ⟨h.symm, ht⟩)
  · exact Or.inl (Or.inl h)

instance {κ τ : Type} [LinearOrder τ] :
    IsTrans (EnvMsg κ τ) presentLE := by
  constructor
  intro a b c hab hbc
  rcases hab with h1 | ⟨h1, t1⟩
  · rcases hbc with h2 | ⟨h2, _⟩
    · exact Or.inl (h2.trans h1)
    · exact Or.inl (by rw [← h2]; exact h1)
  · rcases hbc with h2 | ⟨h2, t2⟩
    · exact Or.inl (by rw [h1]; exact h2)
    · exact Or.inr ⟨h1.trans h2, t1.trans t2⟩

/-- Modelled from the spec: presentation sort of the messages by
(severity descending, localized text ascending); a stable sort. -/
def sortForPresentation {κ τ : Type} [LinearOrder τ]
    (msgs : List (EnvMsg κ τ)) : List (EnvMsg κ τ) :=
  List.insertionSort presentLE msgs

/-- Closed disc with integer center and radius; a negative radius
denotes the empty region (a disc deflated below a point). -/
structure Disc where
  cx : Int
  cy : Int
  r : Int
deriving DecidableEq, Repr

/-- True when two discs denote overlapping non-empty regions: both
radii non-negative and squared center distance at most the squared
radius sum. -/
def discsOverlap (a b : Disc) : Bool :=
  decide (0 ≤ a.r ∧ 0 ≤ b.r ∧
    (a.cx - b.cx) ^ 2 + (a.cy - b.cy) ^ 2 ≤ (a.r + b.r) ^ 2)

/-- True when the region of disc d is contained in the region of disc
e (both non-empty, center distance at most the radius difference). -/
def discContains (e d : Disc) : Bool :=
  decide (0 ≤ d.r ∧ d.r ≤ e.r ∧
    (e.cx - d.cx) ^ 2 + (e.cy - d.cy) ^ 2 ≤ (e.r - d.r) ^ 2)

/-- Intersection of two disc unions, keeping one witness point region
per overlapping pair: non-empty exactly when the two region unions
truly overlap. -/
def discIntersect (a b : List Disc) : List Disc :=
  a.flatMap (fun d1 => b.filterMap (fun d2 =>
    if discsOverlap d1 d2 then
      some ⟨Int.tdiv (d1.cx + d2.cx) 2, Int.tdiv (d1.cy + d2.cy) 2, 0⟩
    else Option.none))

/-- Closed circle outline path of the given diameter centered at p:
two half arcs, closed back onto the start vertex (the shape of
Path::circle(diameter).translated(p)). -/
def circlePathShape (diameter : Int) (p : Pt) : PathR :=
  ⟨[⟨⟨p.x + Int.tdiv diameter 2, p.y⟩, 180000⟩,
    ⟨⟨p.x - Int.tdiv diameter 2, p.y⟩, 180000⟩,
    ⟨⟨p.x + Int.tdiv diameter 2, p.y⟩, 0⟩]⟩

/-- Executable test backend used for the concrete runs below: a region
is a finite union of closed discs.  The operations are exact for the
areas the concrete boards contain (via discs, round drills, disc
offsets, pairwise overlaps); generators for shapes those boards never
contain (net lines, planes, pads, rendered texts) return the empty
region, and subtraction tests coverage disc by disc. -/
def discGeom : Geom where
  Area := List Disc
  emptyArea := []
  viaArea := fun v off => [⟨v.pos.x, v.pos.y, Int.tdiv v.size 2 + off⟩]
  netLineArea := fun _ _ => []
  planeArea := fun _ => []
  polygonArea := fun _ => []
  polygonAreaT := fun _ _ => []
  strokeTextArea := fun _ _ => []
  padArea := fun _ _ _ _ => []
  circleArea := fun c tr off =>
    [⟨tr.pos.x + c.center.x, tr.pos.y + c.center.y,
      Int.tdiv c.diameter 2 + off⟩]
  holeArea := fun h tr off =>
    match h.path.vertices with
    | [v] => [⟨tr.pos.x + v.pos.x, tr.pos.y + v.pos.y,
               Int.tdiv h.diameter 2 + off⟩]
    | _ => []
  copperOnLayer := fun _ _ _ => []
  offsetArea := fun a off => a.map (fun d => ⟨d.cx, d.cy, d.r + off⟩)
  uniteArea := fun a b => a ++ b
  uniteSelfNonZero := fun a => a
  uniteEvenOdd := fun _ => []
  intersectArea := discIntersect
  intersectAll := fun l =>
    match l with
    | [] => []
    | x :: xs => xs.foldl discIntersect x
  subtractArea := fun a b =>
    a.filter (fun d => decide (0 ≤ d.r) && !(b.any (fun e => discContains e d)))
  flattenArea := fun a =>
    (a.filter (fun d => decide (0 ≤ d.r))).map
      (fun d => circlePathShape (2 * d.r) ⟨d.cx, d.cy⟩)
  ringPaths := fun a => a
  convertPaths := fun _ => []
  pathArea := fun p =>
    match p.vertices with
    | [a, b, c] =>
      if a.sweep = 180000 ∧ b.sweep = 180000 ∧ c.pos = a.pos ∧
          a.pos.y = b.pos.y then
        [⟨Int.tdiv (a.pos.x + b.pos.x) 2, a.pos.y,
          Int.tdiv (a.pos.x - b.pos.x) 2⟩]
      else []
    | _ => []
  strokeArea := fun p w =>
    match p.vertices with
    | [v] => [⟨v.pos.x, v.pos.y, Int.tdiv w 2⟩]
    | _ => []
  outlineStrokes := fun p w =>
    match p.vertices with
    | [v] => [circlePathShape w v.pos]
    | _ => [p]
  circlePathAt := fun d p => circlePathShape d p
  obroundPath := fun p1 p2 _ => ⟨[⟨p1, 0⟩, ⟨p2, 0⟩]⟩
  mapPath := fun tr p => p.translated tr.pos
  mapPoint := fun tr p => ⟨tr.pos.x + p.x, tr.pos.y + p.y⟩
  padGeomCoversOrigin := fun _ => false

/-- Membership in the pairwise scan: a result appears exactly when the
item list splits around two items x before y with f x y producing it. -/
theorem mem_pairMsgs {α β : Type} (f : α → α → Option β) (l : List α)
    (m : β) :
    m ∈ pairMsgs f l ↔
      ∃ l1 x l2 y l3, l = l1 ++ x :: (l2 ++ y :: l3) ∧ f x y = some m := by
  induction l with
  | nil =>
    simp only [pairMsgs, List.not_mem_nil, false_iff]
    rintro ⟨l1, x, l2, y, l3, heq, -⟩
    exact (List.cons_ne_nil x _) (List.append_eq_nil.mp heq.symm).2
  | cons a as ih =>
    simp only [pairMsgs, List.mem_append, List.mem_filterMap, ih]
    constructor
    · rintro (⟨y, hy, hfy⟩ | ⟨l1, x, l2, y, l3, heq, hf⟩)
      · obtain ⟨l2, l3, rfl⟩ := List.append_of_mem hy
        exact ⟨[], a, l2, y, l3, rfl, hfy⟩
      · exact ⟨a :: l1, x, l2, y, l3, by rw [heq]; rfl, hf⟩
    · rintro ⟨l1, x, l2, y, l3, heq, hf⟩
      cases l1 with
      | nil =>
        rw [List.nil_append] at heq
        injection heq with h1 h2
        subst h1
        exact Or.inl ⟨y, by rw [h2]; simp, hf⟩
      | cons b l1 =>
        rw [List.cons_append] at heq
        injection heq with h1 h2
        exact Or.inr ⟨l1, x, l2, y, l3, h2, hf⟩

/-- Every result of the pairwise scan is produced by f on some pair. -/
theorem pairMsgs_forall {α β : Type} (f : α → α → Option β) (l : List α)
    (P : β → Prop) (h : ∀ x y m, f x y = some m → P m) :
    ∀ m ∈ pairMsgs f l, P m := by
  induction l with
  | nil => intro m hm; cases hm
  | cons a as ih =>
    intro m hm
    rcases List.mem_append.mp hm with hm | hm
    · obtain ⟨y, -, hfy⟩ := List.mem_filterMap.mp hm
      exact h a y m hfy
    · exact ih m hm

/-- Characterization of one copper pair test. -/
theorem copperPairCheck_eq_some (g : Geom) (i1 i2 : CopperItem g.Area)
    (m : Msg) :
    copperPairCheck g i1 i2 = some m ↔
      ((i1.netSignal ≠ i2.netSignal ∨ i1.netSignal = Option.none ∨
          i2.netSignal = Option.none) ∧
        (i1.layer = Option.none ∨ i2.layer = Option.none ∨
          i1.layer = i2.layer)) ∧
      g.flattenArea (g.intersectArea i1.areas i2.areas) ≠ [] ∧
      m = copperClearanceMsg i1 i2
        (g.flattenArea (g.intersectArea i1.areas i2.areas)) := by
  simp only [copperPairCheck]
  split_ifs with h1 h2
  · simp [h2]
  · simp [h1, h2, eq_comm]
  · simp [h1]

/-- Characterization of one drill pair test. -/
theorem drillPairCheck_eq_some (g : Geom) (i1 i2 : DrillItem g.Area)
    (m : Msg) :
    drillPairCheck g i1 i2 = some m ↔
      g.flattenArea (g.intersectArea i1.areas i2.areas) ≠ [] ∧
      m = ⟨.drillDrillClearance,
           [i1.itemUuid, i1.holeUuid, i2.itemUuid, i2.holeUuid],
           g.flattenArea (g.intersectArea i1.areas i2.areas)⟩ := by
  simp only [drillPairCheck]
  split_ifs with h1
  · simp [h1]
  · simp [h1, eq_comm]

/-- C1 (amended): in checkCopperCopperClearances (running, so with a
non-zero clearance setting), a violation is emitted for an ordered pair
of collected copper items exactly when (a) their net signals differ or
either has none, (b) they share a layer (an item with no layer shares
every layer), and (c) after inflating every item by
max(((clearance - maxArcTolerance)/2) - 1, 0) — the source clamps the
inflation at zero — the flattened intersection of the two areas is
non-empty; the message carries those flattened rings as locations. -/
theorem drc_C1_copper_copper_characterization (g : Geom) (b : Board)
    (s : DrcSettings) (ip : Bool) (hc : s.minCopperCopperClearance ≠ 0)
    (m : Msg) :
    m ∈ checkCopperCopperClearances g b s ip ↔
      ∃ l1 i1 l2 i2 l3,
        collectCopperItems g b
            (max (Int.tdiv (s.minCopperCopperClearance - maxArcTolerance) 2
              - 1) 0) ip
          = l1 ++ i1 :: (l2 ++ i2 :: l3) ∧
        (i1.netSignal ≠ i2.netSignal ∨ i1.netSignal = Option.none ∨
          i2.netSignal = Option.none) ∧
        (i1.layer = Option.none ∨ i2.layer = Option.none ∨
          i1.layer = i2.layer) ∧
        g.flattenArea (g.intersectArea i1.areas i2.areas) ≠ [] ∧
        m = copperClearanceMsg i1 i2
          (g.flattenArea (g.intersectArea i1.areas i2.areas)) := by
  simp only [checkCopperCopperClearances, copperCopperOffset, if_neg hc,
    mem_pairMsgs, copperPairCheck_eq_some, and_assoc]

/-- First via of the C1 counterexample board: net 0, outer diameter
2000 nm at the origin. -/
def cexViaA : Via := ⟨1, ⟨0, 0⟩, 300000, 2000⟩

/-- Second via of the C1 counterexample board: net 1, outer diameter
2000 nm, 1500 nm away, so the two via discs genuinely overlap. -/
def cexViaB : Via := ⟨2, ⟨1500, 0⟩, 300000, 2000⟩

/-- C1 counterexample board: just the two vias on different nets. -/
def cexBoardC1 : Board :=
  ⟨[.topCopper, .botCopper],
   [⟨10, some 0, [cexViaA], [], [], true⟩,
    ⟨11, some 1, [cexViaB], [], [], true⟩],
   [], [], [], [], [], [], []⟩

/-- C1 counterexample settings: copper-copper clearance 1 nm, all other
checks disabled. -/
def cexSettingsC1 : DrcSettings :=
  ⟨0, 1, 0, 0, 0, 0, 0, 0, 0, 0, 0, .any, .any, 0⟩

/-- C1 counterexample: with clearance 1 nm the inflation written in the
claim, ((clearance - max_arc_tolerance)/2) - 1 = -2500 nm, deflates
each via disc of radius 1000 nm to an empty region, so the claim
predicts no message; the source clamps the inflation at zero and emits
a violation for the two overlapping vias.  The claim-as-written message
set (specCopperCopperMessages) is therefore empty while the check
emits a message. -/
theorem drc_C1_counterexample :
    specCopperCopperMessages discGeom cexBoardC1 cexSettingsC1 false = []
    ∧ checkCopperCopperClearances discGeom cexBoardC1 cexSettingsC1 false
      ≠ [] := by
  constructor
  · decide
  · decide

/-- C1 witness: the characterization applied to the counterexample
board with its non-zero clearance discharged. -/
theorem drc_C1_witness :
    cexSettingsC1.minCopperCopperClearance ≠ 0 ∧
    ((⟨.minimumWidth, [], []⟩ : Msg) ∈
        checkCopperCopperClearances discGeom cexBoardC1 cexSettingsC1 false
      ↔ ∃ l1 i1 l2 i2 l3,
        collectCopperItems discGeom cexBoardC1
            (max (Int.tdiv (cexSettingsC1.minCopperCopperClearance -
              maxArcTolerance) 2 - 1) 0) false
          = l1 ++ i1 :: (l2 ++ i2 :: l3) ∧
        (i1.netSignal ≠ i2.netSignal ∨ i1.netSignal = Option.none ∨
          i2.netSignal = Option.none) ∧
        (i1.layer = Option.none ∨ i2.layer = Option.none ∨
          i1.layer = i2.layer) ∧
        discGeom.flattenArea (discGeom.intersectArea i1.areas i2.areas)
          ≠ [] ∧
        (⟨.minimumWidth, [], []⟩ : Msg) = copperClearanceMsg i1 i2
          (discGeom.flattenArea
            (discGeom.intersectArea i1.areas i2.areas))) :=
  ⟨by decide,
   drc_C1_copper_copper_characterization discGeom cexBoardC1 cexSettingsC1
     false (by decide) ⟨.minimumWidth, [], []⟩⟩

/-- C4: in checkDrillDrillClearances (running, so with a non-zero
clearance setting), every drill area is the outline stroke of its path
at diameter + max(clearance - maxArcTolerance - 1, 0), and a violation
is emitted for an ordered pair of drills exactly when the flattened
intersection of the two expanded areas is non-empty, carrying those
flattened rings as locations. -/
theorem drc_C4_drill_drill_characterization (g : Geom) (b : Board)
    (s : DrcSettings) (hc : s.minDrillDrillClearance ≠ 0) (m : Msg) :
    m ∈ checkDrillDrillClearances g b s ↔
      ∃ l1 i1 l2 i2 l3,
        collectDrillItems g b
            (max (s.minDrillDrillClearance - maxArcTolerance - 1) 0)
          = l1 ++ i1 :: (l2 ++ i2 :: l3) ∧
        g.flattenArea (g.intersectArea i1.areas i2.areas) ≠ [] ∧
        m = ⟨.drillDrillClearance,
             [i1.itemUuid, i1.holeUuid, i2.itemUuid, i2.holeUuid],
             g.flattenArea (g.intersectArea i1.areas i2.areas)⟩ := by
  simp only [checkDrillDrillClearances, drillExpansion, if_neg hc,
    mem_pairMsgs, drillPairCheck_eq_some, and_assoc]

/-- Board with no objects at all, used by several concrete runs. -/
def emptyBoard : Board := ⟨[], [], [], [], [], [], [], [], []⟩

/-- Settings with every check disabled. -/
def zeroSettings : DrcSettings :=
  ⟨0, 0, 0, 0, 0, 0, 0, 0, 0, 0, 0, .any, .any, 0⟩

/-- Settings enabling only the drill-drill clearance check. -/
def drillSettingsC4 : DrcSettings :=
  ⟨0, 0, 0, 0, 300000, 0, 0, 0, 0, 0, 0, .any, .any, 0⟩

/-- C4 witness: the characterization applied to a concrete board with
the non-zero clearance discharged. -/
theorem drc_C4_witness :
    drillSettingsC4.minDrillDrillClearance ≠ 0 ∧
    ((⟨.minimumWidth, [], []⟩ : Msg) ∈
        checkDrillDrillClearances discGeom emptyBoard drillSettingsC4
      ↔ ∃ l1 i1 l2 i2 l3,
        collectDrillItems discGeom emptyBoard
            (max (drillSettingsC4.minDrillDrillClearance - maxArcTolerance
              - 1) 0)
          = l1 ++ i1 :: (l2 ++ i2 :: l3) ∧
        discGeom.flattenArea (discGeom.intersectArea i1.areas i2.areas)
          ≠ [] ∧
        (⟨.minimumWidth, [], []⟩ : Msg) =
          ⟨.drillDrillClearance,
           [i1.itemUuid, i1.holeUuid, i2.itemUuid, i2.holeUuid],
           discGeom.flattenArea
             (discGeom.intersectArea i1.areas i2.areas)⟩) :=
  ⟨by decide,
   drc_C4_drill_drill_characterization discGeom emptyBoard drillSettingsC4
     (by decide) ⟨.minimumWidth, [], []⟩⟩

/-- Slot classes of the claim: curved, multi-segment straight,
single-segment straight, round drill. -/
inductive SlotClass where
  | curved
  | multiStraight
  | singleStraight
  | roundDrill
deriving DecidableEq, Repr

/-- Classification of a drill path following the spec glossary: curved
when it has an arc vertex, else multi-segment straight with at least
three vertices, else a single-segment straight slot with two vertices,
else a round drill. -/
def slotClass (p : PathR) : SlotClass :=
  if curvedSlotPath p then .curved
  else if multiSegmentSlotPath p then .multiStraight
  else if slotPath p then .singleStraight
  else .roundDrill

/-- C5: requiresHoleSlotWarning flags a hole exactly when its slot
class exceeds the allowance — a curved slot below Any, a multi-segment
straight slot below MultiSegmentStraight, a single-segment straight
slot below SingleSegmentStraight — and a round drill is never flagged;
accordingly the allowed-slots checks emit a ForbiddenSlot message
exactly for the flagged holes when the allowance is not Any. -/
theorem drc_C5_forbidden_slot_classification (p : PathR)
    (a : AllowedSlots) (g : Geom) (b : Board) (s : DrcSettings)
    (m : Msg) :
    (requiresHoleSlotWarning p a = true ↔
      (slotClass p = .curved ∧ a.rank < AllowedSlots.any.rank) ∨
      (slotClass p = .multiStraight ∧
        a.rank < AllowedSlots.multiSegmentStraight.rank) ∨
      (slotClass p = .singleStraight ∧
        a.rank < AllowedSlots.singleSegmentStraight.rank)) ∧
    (slotClass p = .roundDrill → requiresHoleSlotWarning p a = false) ∧
    (m ∈ checkAllowedNpthSlots g b s ↔
      s.allowedNpthSlots ≠ AllowedSlots.any ∧
      ((∃ h ∈ b.holes,
          requiresHoleSlotWarning h.path s.allowedNpthSlots = true ∧
          m = ⟨.forbiddenSlot, [h.uuid],
               getHoleLocation g h.path h.diameter Transform.identity
                 Transform.identity⟩) ∨
        (∃ d ∈ b.devices, ∃ h ∈ d.footprint.holes,
          requiresHoleSlotWarning h.path s.allowedNpthSlots = true ∧
          m = ⟨.forbiddenSlot, [d.uuid, h.uuid],
               getHoleLocation g h.path h.diameter d.transform
                 Transform.identity⟩))) ∧
    (m ∈ checkAllowedPthSlots g b s ↔
      s.allowedPthSlots ≠ AllowedSlots.any ∧
      (∃ d ∈ b.devices, ∃ q ∈ d.pads, ∃ h ∈ q.holes,
        requiresHoleSlotWarning h.path s.allowedPthSlots = true ∧
        m = ⟨.forbiddenSlot, [q.uuid, h.uuid],
             getHoleLocation g h.path h.diameter q.libTransform
               d.transform⟩)) := by
  refine ⟨?_, ?_, ?_, ?_⟩
  · by_cases hcur : curvedSlotPath p
    · cases a <;>
        simp [requiresHoleSlotWarning, slotClass, hcur, AllowedSlots.rank]
    · by_cases h3 : multiSegmentSlotPath p
      · have h2 : slotPath p = true := by
          unfold multiSegmentSlotPath at h3
          unfold slotPath
          simp only [decide_eq_true_eq] at h3 ⊢
          omega
        cases a <;>
          simp [requiresHoleSlotWarning, slotClass, hcur, h3, h2,
            AllowedSlots.rank]
      · by_cases h2 : slotPath p
        · cases a <;>
            simp [requiresHoleSlotWarning, slotClass, hcur, h3, h2,
              AllowedSlots.rank]
        · cases a <;>
            simp [requiresHoleSlotWarning, slotClass, hcur, h3, h2,
              AllowedSlots.rank]
  · intro hround
    unfold slotClass at hround
    by_cases hcur : curvedSlotPath p
    · simp [hcur] at hround
    · by_cases h3 : multiSegmentSlotPath p
      · simp [hcur, h3] at hround
      · by_cases h2 : slotPath p
        · simp [hcur, h3, h2] at hround
        · simp [requiresHoleSlotWarning, hcur, h3, h2]
  · unfold checkAllowedNpthSlots
    split_ifs with hany
    · simp [hany]
    · simp only [List.mem_append, List.mem_filterMap, List.mem_flatMap,
        ne_eq, hany, not_false_iff, true_and]
      constructor
      · rintro (⟨h, hh, hf⟩ | ⟨d, hd, h, hh, hf⟩)
        · refine Or.inl ⟨h, hh, ?_⟩
          revert hf
          split_ifs with hr
          · intro he; injection he with he; exact ⟨hr, he.symm⟩
          · intro he; cases he
        · refine Or.inr ⟨d, hd, h, hh, ?_⟩
          revert hf
          split_ifs with hr
          · intro he; injection he with he; exact ⟨hr, he.symm⟩
          · intro he; cases he
      · rintro (⟨h, hh, hr, rfl⟩ | ⟨d, hd, h, hh, hr, rfl⟩)
        · exact Or.inl ⟨h, hh, by rw [if_pos hr]⟩
        · exact Or.inr ⟨d, hd, h, hh, by rw [if_pos hr]⟩
  · unfold checkAllowedPthSlots
    split_ifs with hany
    · simp [hany]
    · simp only [List.mem_flatMap, List.mem_filterMap, ne_eq, hany,
        not_false_iff, true_and]
      constructor
      · rintro ⟨d, hd, q, hq, h, hh, hf⟩
        refine ⟨d, hd, q, hq, h, hh, ?_⟩
        revert hf
        split_ifs with hr
        · intro he; injection he with he; exact ⟨hr, he.symm⟩
        · intro he; cases he
      · rintro ⟨d, hd, q, hq, h, hh, hr, rfl⟩
        exact ⟨d, hd, q, hq, h, hh, by rw [if_pos hr]⟩

/-- Congruence for filterMap restricted to list members. -/
theorem filterMap_congr_mem {α β : Type} (l : List α)
    (f f2 : α → Option β) (h : ∀ x ∈ l, f x = f2 x) :
    l.filterMap f = l.filterMap f2 := by
  induction l with
  | nil => rfl
  | cons a as ih =>
    simp only [List.filterMap_cons, h a (List.mem_cons_self a as)]
    rw [ih (fun x hx => h x (List.mem_cons_of_mem a hx))]

/-- Congruence for flatMap restricted to list members. -/
theorem flatMap_congr_mem {α β : Type} (l : List α)
    (f f2 : α → List β) (h : ∀ x ∈ l, f x = f2 x) :
    l.flatMap f = l.flatMap f2 := by
  induction l with
  | nil => rfl
  | cons a as ih =>
    simp only [List.flatMap_cons, h a (List.mem_cons_self a as)]
    rw [ih (fun x hx => h x (List.mem_cons_of_mem a hx))]

/-- Congruence for foldl restricted to list members. -/
theorem foldl_congr_mem {α β : Type} (l : List α) (f f2 : β → α → β)
    (h : ∀ b x, x ∈ l → f b x = f2 b x) :
    ∀ a, l.foldl f a = l.foldl f2 a := by
  induction l with
  | nil => intro a; rfl
  | cons x xs ih =>
    intro a
    simp only [List.foldl_cons, h a x (List.mem_cons_self x xs)]
    exact ih (fun b y hy => h b y (List.mem_cons_of_mem x hy)) _

/-- Well-formedness of a board: every PositiveLength diameter of the
source model (via drills, via sizes, pad hole diameters, board and
footprint hole diameters) is at least 1 nm. -/
def positiveDiameters (b : Board) : Prop :=
  (∀ seg ∈ b.netSegments, ∀ v ∈ seg.vias, 1 ≤ v.drill ∧ 1 ≤ v.size) ∧
  (∀ d ∈ b.devices, ∀ p ∈ d.pads, ∀ h ∈ p.holes, 1 ≤ h.diameter) ∧
  (∀ h ∈ b.holes, 1 ≤ h.diameter) ∧
  (∀ d ∈ b.devices, ∀ h ∈ d.footprint.holes, 1 ≤ h.diameter)

instance (b : Board) : Decidable (positiveDiameters b) := by
  unfold positiveDiameters
  infer_instance

/-- C10: with PositiveLength drill diameters (at least 1 nm) and a
running annular ring check (setting at least 1 nm), the computed test
diameter drill + 2 * ring - 1 is strictly positive for every via and
every pad hole, so the skip branch for a non-positive diameter is
unreachable and the check behaves like its skip-free variant: every
via and every pad hole is tested against the common copper area. -/
theorem drc_C10_annular_skip_unreachable (g : Geom) (b : Board)
    (s : DrcSettings) (ip : Bool) (hb : positiveDiameters b)
    (hr : 1 ≤ s.minPthAnnularRing) :
    (∀ seg ∈ b.netSegments, ∀ v ∈ seg.vias,
      0 < annularTestDiameter v.drill s.minPthAnnularRing) ∧
    (∀ d ∈ b.devices, ∀ p ∈ d.pads, ∀ h ∈ p.holes,
      0 < annularTestDiameter h.diameter s.minPthAnnularRing) ∧
    checkMinimumPthAnnularRing g b s ip
      = checkMinimumPthAnnularRingTotal g b s ip := by
  obtain ⟨hvias, hpads, -, -⟩ := hb
  have hviaPos : ∀ seg ∈ b.netSegments, ∀ v ∈ seg.vias,
      0 < annularTestDiameter v.drill s.minPthAnnularRing := by
    intro seg hseg v hv
    have := (hvias seg hseg v hv).1
    unfold annularTestDiameter
    omega
  have hpadPos : ∀ d ∈ b.devices, ∀ p ∈ d.pads, ∀ h ∈ p.holes,
      0 < annularTestDiameter h.diameter s.minPthAnnularRing := by
    intro d hd p hp h hh
    have := hpads d hd p hp h hh
    unfold annularTestDiameter
    omega
  refine ⟨hviaPos, hpadPos, ?_⟩
  unfold checkMinimumPthAnnularRing checkMinimumPthAnnularRingTotal
  have hne : ¬ s.minPthAnnularRing = 0 := by omega
  rw [if_neg hne, if_neg hne]
  simp only []
  congr 1
  · apply flatMap_congr_mem
    intro seg hseg
    apply filterMap_congr_mem
    intro v hv
    rw [if_neg (by have := hviaPos seg hseg v hv; omega)]
  · apply flatMap_congr_mem
    intro d hd
    apply filterMap_congr_mem
    intro p hp
    have : padAnnularAreas g p s.minPthAnnularRing
        = padAnnularAreasTotal g p s.minPthAnnularRing := by
      unfold padAnnularAreas padAnnularAreasTotal
      apply foldl_congr_mem
      intro acc h hh
      rw [if_neg (by have := hpadPos d hd p hp h hh; omega)]
    rw [this]

/-- Board of the C10 witness: one via with a 300 um drill. -/
def viaBoardC10 : Board :=
  ⟨[.topCopper, .botCopper],
   [⟨20, some 0, [⟨3, ⟨0, 0⟩, 300000, 500000⟩], [], [], true⟩],
   [], [], [], [], [], [], []⟩

/-- Settings of the C10 witness: annular ring 150 um. -/
def ringSettingsC10 : DrcSettings :=
  ⟨0, 0, 0, 0, 0, 0, 150000, 0, 0, 0, 0, .any, .any, 0⟩

/-- C10 witness: the skip-unreachability applied to a concrete board
with both hypotheses discharged. -/
theorem drc_C10_witness :
    positiveDiameters viaBoardC10 ∧ 1 ≤ ringSettingsC10.minPthAnnularRing
    ∧ ((∀ seg ∈ viaBoardC10.netSegments, ∀ v ∈ seg.vias,
        0 < annularTestDiameter v.drill ringSettingsC10.minPthAnnularRing) ∧
      (∀ d ∈ viaBoardC10.devices, ∀ p ∈ d.pads, ∀ h ∈ p.holes,
        0 < annularTestDiameter h.diameter
          ringSettingsC10.minPthAnnularRing) ∧
      checkMinimumPthAnnularRing discGeom viaBoardC10 ringSettingsC10 false
        = checkMinimumPthAnnularRingTotal discGeom viaBoardC10
            ringSettingsC10 false) :=
  ⟨by decide, by decide,
   drc_C10_annular_skip_unreachable discGeom viaBoardC10 ringSettingsC10
     false (by decide) (by decide)⟩

/-- Every message of the minimum copper width check has that kind. -/
theorem kind_copperWidth (g : Geom) (b : Board) (s : DrcSettings) :
    ∀ m ∈ checkMinimumCopperWidth g b s, m.kind = .minimumWidth := by
  intro m hm
  unfold checkMinimumCopperWidth at hm
  split_ifs at hm
  · cases hm
  · simp only [List.mem_append, List.mem_filterMap, List.mem_flatMap,
      Option.ite_none_right_eq_some, Option.some.injEq] at hm
    rcases hm with ((⟨t, -, -, -, rfl⟩ | ⟨p, -, -, -, rfl⟩) |
      ⟨d, -, t, -, -, -, rfl⟩) | ⟨seg, -, n, -, -, -, rfl⟩ <;> rfl

/-- Every message of the copper-copper clearance check has that kind. -/
theorem kind_copperCopper (g : Geom) (b : Board) (s : DrcSettings)
    (ip : Bool) :
    ∀ m ∈ checkCopperCopperClearances g b s ip,
      m.kind = .copperCopperClearance := by
  intro m hm
  unfold checkCopperCopperClearances at hm
  split_ifs at hm
  · cases hm
  · refine pairMsgs_forall _ _
      (fun mm => mm.kind = .copperCopperClearance) ?_ m hm
    intro x y mm hf
    rw [copperPairCheck_eq_some] at hf
    rw [hf.2.2]
    rfl

/-- Every message of the copper-board clearance check has that kind. -/
theorem kind_copperBoard (g : Geom) (b : Board) (s : DrcSettings)
    (ip : Bool) :
    ∀ m ∈ checkCopperBoardClearances g b s ip,
      m.kind = .copperBoardClearance := by
  intro m hm
  by_cases hg : s.minCopperBoardClearance = 0
  · rw [checkCopperBoardClearances, if_pos hg] at hm
    cases hm
  · rw [checkCopperBoardClearances, if_neg hg] at hm
    simp only [List.mem_append, List.mem_filterMap, List.mem_flatMap,
      List.mem_ite_nil_left, Option.ite_none_left_eq_some,
      Option.ite_none_right_eq_some, Option.some.injEq] at hm
    rcases hm with
      (((⟨seg, -, ⟨v, -, -, rfl⟩ | ⟨n, -, -, rfl⟩⟩ | ⟨-, p, -, -, rfl⟩) |
          ⟨p, -, -, -, rfl⟩) | ⟨t, -, -, -, rfl⟩) |
        ⟨d, -, ((⟨p, -, l, -, -, -, rfl⟩ | ⟨p, -, -, -, rfl⟩) |
          ⟨c, -, -, -, rfl⟩) | ⟨t, -, -, -, rfl⟩⟩ <;> rfl

/-- Every message of the copper-hole clearance check has that kind. -/
theorem kind_copperHole (g : Geom) (b : Board) (s : DrcSettings)
    (ip : Bool) :
    ∀ m ∈ checkCopperHoleClearances g b s ip,
      m.kind = .copperHoleClearance := by
  intro m hm
  unfold checkCopperHoleClearances at hm
  split_ifs at hm
  · cases hm
  · simp only [List.mem_append, List.mem_filterMap, List.mem_flatMap,
      Option.ite_none_left_eq_some, Option.some.injEq] at hm
    rcases hm with ⟨h, -, -, rfl⟩ | ⟨d, -, h, -, -, rfl⟩ <;> rfl

/-- Every message of the drill-drill clearance check has that kind. -/
theorem kind_drillDrill (g : Geom) (b : Board) (s : DrcSettings) :
    ∀ m ∈ checkDrillDrillClearances g b s,
      m.kind = .drillDrillClearance := by
  intro m hm
  unfold checkDrillDrillClearances at hm
  split_ifs at hm
  · cases hm
  · refine pairMsgs_forall _ _
      (fun mm => mm.kind = .drillDrillClearance) ?_ m hm
    intro x y mm hf
    rw [drillPairCheck_eq_some] at hf
    rw [hf.2]

/-- Every message of the drill-board clearance check has that kind. -/
theorem kind_drillBoard (g : Geom) (b : Board) (s : DrcSettings) :
    ∀ m ∈ checkDrillBoardClearances g b s,
      m.kind = .drillBoardClearance := by
  intro m hm
  unfold checkDrillBoardClearances at hm
  split_ifs at hm
  · cases hm
  · simp only [List.mem_append, List.mem_filterMap, List.mem_flatMap,
      Option.ite_none_left_eq_some, Option.some.injEq] at hm
    rcases hm with ((⟨seg, -, v, -, -, rfl⟩ | ⟨h, -, -, rfl⟩) |
      ⟨d, -, ⟨p, -, h, -, -, rfl⟩ | ⟨h, -, -, rfl⟩⟩) <;> rfl

/-- Every message of the annular ring check has that kind. -/
theorem kind_annularRing (g : Geom) (b : Board) (s : DrcSettings)
    (ip : Bool) :
    ∀ m ∈ checkMinimumPthAnnularRing g b s ip,
      m.kind = .minimumAnnularRing := by
  intro m hm
  unfold checkMinimumPthAnnularRing at hm
  split_ifs at hm
  · cases hm
  · simp only [List.mem_append, List.mem_filterMap, List.mem_flatMap,
      Option.ite_none_left_eq_some, Option.ite_none_right_eq_some,
      Option.some.injEq] at hm
    rcases hm with ⟨seg, -, v, -, -, -, rfl⟩ | ⟨d, -, p, -, -, rfl⟩ <;> rfl

/-- Every message of the NPTH drill diameter check has that kind. -/
theorem kind_npthDrillDiameter (g : Geom) (b : Board) (s : DrcSettings) :
    ∀ m ∈ checkMinimumNpthDrillDiameter g b s,
      m.kind = .minimumDrillDiameter := by
  intro m hm
  unfold checkMinimumNpthDrillDiameter at hm
  split_ifs at hm
  · cases hm
  · simp only [List.mem_append, List.mem_filterMap, List.mem_flatMap,
      Option.ite_none_right_eq_some, Option.some.injEq] at hm
    rcases hm with ⟨h, -, -, rfl⟩ | ⟨d, -, h, -, -, rfl⟩ <;> rfl

/-- Every message of the NPTH slot width check has that kind. -/
theorem kind_npthSlotWidth (g : Geom) (b : Board) (s : DrcSettings) :
    ∀ m ∈ checkMinimumNpthSlotWidth g b s,
      m.kind = .minimumSlotWidth := by
  intro m hm
  unfold checkMinimumNpthSlotWidth at hm
  split_ifs at hm
  · cases hm
  · simp only [List.mem_append, List.mem_filterMap, List.mem_flatMap,
      Option.ite_none_right_eq_some, Option.some.injEq] at hm
    rcases hm with ⟨h, -, -, rfl⟩ | ⟨d, -, h, -, -, rfl⟩ <;> rfl

/-- Every message of the PTH drill diameter check has that kind. -/
theorem kind_pthDrillDiameter (g : Geom) (b : Board) (s : DrcSettings) :
    ∀ m ∈ checkMinimumPthDrillDiameter g b s,
      m.kind = .minimumDrillDiameter := by
  intro m hm
  unfold checkMinimumPthDrillDiameter at hm
  split_ifs at hm
  · cases hm
  · simp only [List.mem_append, List.mem_filterMap, List.mem_flatMap,
      Option.ite_none_right_eq_some, Option.some.injEq] at hm
    rcases hm with ⟨seg, -, v, -, -, rfl⟩ | ⟨d, -, p, -, h, -, -, rfl⟩ <;>
      rfl

/-- Every message of the PTH slot width check has that kind. -/
theorem kind_pthSlotWidth (g : Geom) (b : Board) (s : DrcSettings) :
    ∀ m ∈ checkMinimumPthSlotWidth g b s, m.kind = .minimumSlotWidth := by
  intro m hm
  unfold checkMinimumPthSlotWidth at hm
  split_ifs at hm
  · cases hm
  · simp only [List.mem_filterMap, List.mem_flatMap,
      Option.ite_none_right_eq_some, Option.some.injEq] at hm
    rcases hm with ⟨d, -, p, -, h, -, -, rfl⟩
    rfl

/-- Every message of the allowed NPTH slots check has that kind. -/
theorem kind_npthSlots (g : Geom) (b : Board) (s : DrcSettings) :
    ∀ m ∈ checkAllowedNpthSlots g b s, m.kind = .forbiddenSlot := by
  intro m hm
  unfold checkAllowedNpthSlots at hm
  split_ifs at hm
  · cases hm
  · simp only [List.mem_append, List.mem_filterMap, List.mem_flatMap,
      Option.ite_none_right_eq_some, Option.some.injEq] at hm
    rcases hm with ⟨h, -, -, rfl⟩ | ⟨d, -, h, -, -, rfl⟩ <;> rfl

/-- Every message of the allowed PTH slots check has that kind. -/
theorem kind_pthSlots (g : Geom) (b : Board) (s : DrcSettings) :
    ∀ m ∈ checkAllowedPthSlots g b s, m.kind = .forbiddenSlot := by
  intro m hm
  unfold checkAllowedPthSlots at hm
  split_ifs at hm
  · cases hm
  · simp only [List.mem_filterMap, List.mem_flatMap,
      Option.ite_none_right_eq_some, Option.some.injEq] at hm
    rcases hm with ⟨d, -, p, -, h, -, -, rfl⟩
    rfl

/-- Every message of the pad connection check has that kind. -/
theorem kind_padConnections (g : Geom) (b : Board) :
    ∀ m ∈ checkInvalidPadConnections g b,
      m.kind = .invalidPadConnection := by
  intro m hm
  unfold checkInvalidPadConnections at hm
  simp only [List.mem_filterMap, List.mem_flatMap,
    Option.ite_none_left_eq_some, Option.some.injEq] at hm
  rcases hm with ⟨d, -, p, -, l, -, -, rfl⟩
  rfl

/-- Every message of the courtyard clearance check has that kind. -/
theorem kind_courtyard (g : Geom) (b : Board) :
    ∀ m ∈ checkCourtyardClearances g b, m.kind = .courtyardOverlap := by
  intro m hm
  unfold checkCourtyardClearances at hm
  simp only [List.mem_flatMap] at hm
  obtain ⟨l, -, hm⟩ := hm
  refine pairMsgs_forall _ _ (fun mm => mm.kind = .courtyardOverlap) ?_ m hm
  intro x y mm hf
  unfold courtyardPairCheck at hf
  simp only [Option.ite_none_left_eq_some, Option.some.injEq] at hf
  rw [← hf.2]

/-- Every message of the board outline check has one of its kinds. -/
theorem kind_boardOutline (g : Geom) (b : Board) (s : DrcSettings) :
    ∀ m ∈ checkBoardOutline g b s,
      m.kind = .openBoardOutlinePolygon ∨ m.kind = .missingBoardOutline ∨
      m.kind = .multipleBoardOutlines ∨
      m.kind = .minimumBoardOutlineInnerRadius := by
  intro m hm
  unfold checkBoardOutline at hm
  simp only [List.mem_append, List.mem_filterMap, List.mem_flatMap,
    List.mem_ite_nil_right, List.mem_ite_nil_left, List.mem_singleton,
    Option.ite_none_left_eq_some, Option.ite_none_right_eq_some,
    Option.some.injEq] at hm
  rcases hm with ((⟨d, -, p, -, -, -, rfl⟩ | ⟨-, rfl⟩) | ⟨-, rfl⟩) |
    ⟨-, -, rfl⟩
  · exact Or.inl rfl
  · exact Or.inr (Or.inl rfl)
  · exact Or.inr (Or.inr (Or.inl rfl))
  · exact Or.inr (Or.inr (Or.inr rfl))

/-- Every message of the unplaced components check has that kind. -/
theorem kind_unplacedComponents (b : Board) :
    ∀ m ∈ checkForUnplacedComponents b, m.kind = .missingDevice := by
  intro m hm
  unfold checkForUnplacedComponents at hm
  simp only [List.mem_filterMap] at hm
  obtain ⟨c, -, hf⟩ := hm
  revert hf
  split
  · intro hf; cases hf
  · split_ifs with h1
    · intro hf; cases hf
    · intro hf; injection hf with hf; rw [← hf]

/-- Every message of the default devices check has that kind. -/
theorem kind_defaultDevices (g : Geom) (b : Board) :
    ∀ m ∈ checkCircuitDefaultDevices g b,
      m.kind = .defaultDeviceMismatch := by
  intro m hm
  unfold checkCircuitDefaultDevices at hm
  simp only [List.mem_filterMap] at hm
  obtain ⟨d, -, hf⟩ := hm
  revert hf
  split
  · intro hf; cases hf
  · split
    · intro hf; cases hf
    · split_ifs with h1
      · intro hf; injection hf with hf; rw [← hf]
      · intro hf; cases hf

/-- Every message of the missing connections check has that kind. -/
theorem kind_missingConnections (g : Geom) (b : Board) :
    ∀ m ∈ checkForMissingConnections g b, m.kind = .missingConnection := by
  intro m hm
  unfold checkForMissingConnections at hm
  simp only [List.mem_map] at hm
  obtain ⟨w, -, rfl⟩ := hm
  rfl

/-- Every message of the stale objects check has one of its kinds. -/
theorem kind_staleObjects (g : Geom) (b : Board) :
    ∀ m ∈ checkForStaleObjects g b,
      m.kind = .emptyNetSegment ∨ m.kind = .unconnectedJunction := by
  intro m hm
  unfold checkForStaleObjects at hm
  simp only [List.mem_append, List.mem_filterMap, List.mem_flatMap,
    List.mem_ite_nil_left, List.mem_singleton,
    Option.ite_none_left_eq_some, Option.some.injEq] at hm
  rcases hm with ⟨seg, -, ⟨-, rfl⟩ | ⟨np, -, -, rfl⟩⟩
  · exact Or.inl rfl
  · exact Or.inr rfl

/-- Message kinds each check can emit. -/
def checkKinds : CheckId → List MsgKind
  | .copperWidth => [.minimumWidth]
  | .copperCopper => [.copperCopperClearance]
  | .copperBoard => [.copperBoardClearance]
  | .copperHole => [.copperHoleClearance]
  | .drillDrill => [.drillDrillClearance]
  | .drillBoard => [.drillBoardClearance]
  | .pthAnnularRing => [.minimumAnnularRing]
  | .npthDrillDiameter => [.minimumDrillDiameter]
  | .npthSlotWidth => [.minimumSlotWidth]
  | .pthDrillDiameter => [.minimumDrillDiameter]
  | .pthSlotWidth => [.minimumSlotWidth]
  | .npthSlots => [.forbiddenSlot]
  | .pthSlots => [.forbiddenSlot]
  | .padConnections => [.invalidPadConnection]
  | .courtyard => [.courtyardOverlap]
  | .boardOutlineCheck => [.openBoardOutlinePolygon, .missingBoardOutline,
      .multipleBoardOutlines, .minimumBoardOutlineInnerRadius]
  | .unplacedComponents => [.missingDevice]
  | .defaultDevices => [.defaultDeviceMismatch]
  | .missingConnections => [.missingConnection]
  | .staleObjects => [.emptyNetSegment, .unconnectedJunction]

/-- Status entries of one check invocation. -/
theorem runCheck_status (g : Geom) (b : Board) (s : DrcSettings)
    (q : Bool) (c : CheckId) :
    (runCheck g b s q c).status
      = if checkEnabled s c then [StatusTag.check c] else [] := by
  unfold runCheck
  split_ifs <;> rfl

/-- Progress checkpoints of one check invocation. -/
theorem runCheck_progress (g : Geom) (b : Board) (s : DrcSettings)
    (q : Bool) (c : CheckId) :
    (runCheck g b s q c).progress
      = if checkEnabled s c then [progressEnd c] else [] := by
  unfold runCheck
  split_ifs <;> rfl

/-- A disabled check emits no messages. -/
theorem runCheck_messages_disabled (g : Geom) (b : Board)
    (s : DrcSettings) (q : Bool) (c : CheckId)
    (h : checkEnabled s c = false) :
    (runCheck g b s q c).messages = [] := by
  unfold runCheck
  rw [if_neg (by rw [h]; exact Bool.false_ne_true)]

/-- Every message of one check invocation has one of the kinds of that
check. -/
theorem runCheck_kind (g : Geom) (b : Board) (s : DrcSettings)
    (q : Bool) (c : CheckId) :
    ∀ m ∈ (runCheck g b s q c).messages, m.kind ∈ checkKinds c := by
  intro m hm
  unfold runCheck at hm
  split_ifs at hm
  · cases c
    ·       exact List.mem_singleton.mpr (kind_copperWidth g b s m hm)
    ·       exact List.mem_singleton.mpr (kind_copperCopper g b s q m hm)
    ·       exact List.mem_singleton.mpr (kind_copperBoard g b s q m hm)
    ·       exact List.mem_singleton.mpr (kind_copperHole g b s q m hm)
    ·       exact List.mem_singleton.mpr (kind_drillDrill g b s m hm)
    ·       exact List.mem_singleton.mpr (kind_drillBoard g b s m hm)
    ·       exact List.mem_singleton.mpr (kind_annularRing g b s q m hm)
    ·       exact List.mem_singleton.mpr (kind_npthDrillDiameter g b s m hm)
    ·       exact List.mem_singleton.mpr (kind_npthSlotWidth g b s m hm)
    ·       exact List.mem_singleton.mpr (kind_pthDrillDiameter g b s m hm)
    ·       exact List.mem_singleton.mpr (kind_pthSlotWidth g b s m hm)
    ·       exact List.mem_singleton.mpr (kind_npthSlots g b s m hm)
    ·       exact List.mem_singleton.mpr (kind_pthSlots g b s m hm)
    ·       exact List.mem_singleton.mpr (kind_padConnections g b m hm)
    ·       exact List.mem_singleton.mpr (kind_courtyard g b m hm)
    ·       rcases kind_boardOutline g b s m hm with h | h | h | h <;>
        simp [checkKinds, h]
    ·       exact List.mem_singleton.mpr (kind_unplacedComponents b m hm)
    ·       exact List.mem_singleton.mpr (kind_defaultDevices g b m hm)
    ·       exact List.mem_singleton.mpr (kind_missingConnections g b m hm)
    ·       rcases kind_staleObjects g b m hm with h | h <;>
        simp [checkKinds, h]
  · cases hm

/-- Every emitted message of a run comes from an enabled check of the
check order and has one of that check's kinds. -/
theorem executeTrace_kinds (g : Geom) (b : Board) (s : DrcSettings)
    (q : Bool) :
    ∀ m ∈ (executeTrace g b s q).messages,
      ∃ c ∈ drcCheckOrder q,
        checkEnabled s c = true ∧ m.kind ∈ checkKinds c := by
  intro m hm
  unfold executeTrace drcRuns at hm
  simp only [List.flatMap_append, List.mem_append, List.flatMap_cons,
    List.flatMap_nil, List.mem_flatMap, List.mem_map] at hm
  rcases hm with hm | hm
  · revert hm
    split_ifs <;> intro hm <;> simp at hm
  · obtain ⟨r, ⟨c, hc, rfl⟩, hmr⟩ := hm
    by_cases he : checkEnabled s c
    · exact ⟨c, hc, he, runCheck_kind g b s q c m hmr⟩
    · rw [runCheck_messages_disabled g b s q c (by
        exact Bool.not_eq_true _ ▸ he)] at hmr
      cases hmr

/-- C2: a quick run does not rebuild planes, emits only
minimum-width, copper-copper, copper-board and copper-hole clearance
messages, collects no plane items in the copper-copper check, and
invokes only the first four checks; a check beyond the first four is
invoked only when quick is false. -/
theorem drc_C2_quick_mode (g : Geom) (b : Board) (s : DrcSettings) :
    (executeTrace g b s true).rebuiltPlanes = false ∧
    (∀ m ∈ (executeTrace g b s true).messages,
      m.kind ∈ [MsgKind.minimumWidth, MsgKind.copperCopperClearance,
        MsgKind.copperBoardClearance, MsgKind.copperHoleClearance]) ∧
    (∀ off : Int, ∀ it ∈ collectCopperItems g b off true,
      it.src.isPlane = false) ∧
    drcCheckOrder true
      = [.copperWidth, .copperCopper, .copperBoard, .copperHole] ∧
    (∀ q : Bool, ∀ c ∈ drcCheckOrder q,
      c ∉ ([.copperWidth, .copperCopper, .copperBoard, .copperHole] :
        List CheckId) → q = false) := by
  refine ⟨rfl, ?_, ?_, rfl, ?_⟩
  · intro m hm
    obtain ⟨c, hc, -, hk⟩ := executeTrace_kinds g b s true m hm
    have : drcCheckOrder true
        = [.copperWidth, .copperCopper, .copperBoard, .copperHole] := rfl
    rw [this] at hc
    simp only [List.mem_cons, List.not_mem_nil, or_false] at hc
    rcases hc with rfl | rfl | rfl | rfl <;>
      simp only [checkKinds, List.mem_singleton] at hk <;> simp [hk]
  · intro off it hit
    unfold collectCopperItems at hit
    simp only [List.mem_append, List.mem_filterMap, List.mem_flatMap,
      List.mem_map, ite_true, List.not_mem_nil, false_and, exists_false,
      false_or, or_false, Option.ite_none_right_eq_some,
      Option.some.injEq] at hit
    rcases hit with
      (((⟨seg, -, ⟨v, -, rfl⟩ | ⟨n, -, -, rfl⟩⟩) | ⟨p, -, -, rfl⟩) |
        ⟨t, -, -, rfl⟩) |
      ⟨d, -, ((⟨p, -, l, -, -, rfl⟩ | ⟨p, -, -, rfl⟩) | ⟨c, -, -, rfl⟩) |
        ⟨t, -, -, rfl⟩⟩ <;> rfl
  · intro q c hc hnot
    cases q
    · rfl
    · exact absurd hc hnot

/-- Kinds of the other checks never collide with the clearance kinds. -/
theorem checkKinds_clearance_disjoint :
    ∀ c : CheckId,
      c ∉ ([.copperCopper, .copperBoard, .copperHole, .drillDrill,
        .drillBoard] : List CheckId) →
      ∀ k ∈ checkKinds c,
        k ∉ ([.copperCopperClearance, .copperBoardClearance,
          .copperHoleClearance, .drillDrillClearance,
          .drillBoardClearance] : List MsgKind) := by
  intro c
  cases c <;> decide

/-- C3: with every clearance setting at zero each clearance check
returns without emitting anything, and consequently no run — quick or
full, on any board and any geometry backend — emits a message of a
clearance kind. -/
theorem drc_C3_zero_clearances_emit_nothing (g : Geom) (b : Board)
    (s : DrcSettings) (ip q : Bool)
    (h1 : s.minCopperCopperClearance = 0)
    (h2 : s.minCopperBoardClearance = 0)
    (h3 : s.minCopperNpthClearance = 0)
    (h4 : s.minDrillDrillClearance = 0)
    (h5 : s.minDrillBoardClearance = 0) :
    checkCopperCopperClearances g b s ip = [] ∧
    checkCopperBoardClearances g b s ip = [] ∧
    checkCopperHoleClearances g b s ip = [] ∧
    checkDrillDrillClearances g b s = [] ∧
    checkDrillBoardClearances g b s = [] ∧
    (∀ m ∈ (executeTrace g b s q).messages,
      m.kind ∉ ([.copperCopperClearance, .copperBoardClearance,
        .copperHoleClearance, .drillDrillClearance,
        .drillBoardClearance] : List MsgKind)) := by
  refine ⟨by rw [checkCopperCopperClearances, if_pos h1],
    by rw [checkCopperBoardClearances, if_pos h2],
    by rw [checkCopperHoleClearances, if_pos h3],
    by rw [checkDrillDrillClearances, if_pos h4],
    by rw [checkDrillBoardClearances, if_pos h5], ?_⟩
  intro m hm hbad
  obtain ⟨c, -, he, hk⟩ := executeTrace_kinds g b s q m hm
  by_cases hcm : c ∈ ([.copperCopper, .copperBoard, .copperHole,
    .drillDrill, .drillBoard] : List CheckId)
  · have hen : checkEnabled s c = false := by
      rcases (by simpa using hcm :
        c = CheckId.copperCopper ∨ c = CheckId.copperBoard ∨
        c = CheckId.copperHole ∨ c = CheckId.drillDrill ∨
        c = CheckId.drillBoard) with rfl | rfl | rfl | rfl | rfl <;>
      simp [checkEnabled, h1, h2, h3, h4, h5]
    rw [hen] at he
    cases he
  · exact checkKinds_clearance_disjoint c hcm m.kind hk hbad

/-- C3 witness: the statement applied to the all-zero settings on a
concrete board, with every hypothesis discharged. -/
theorem drc_C3_witness :
    zeroSettings.minCopperCopperClearance = 0 ∧
    zeroSettings.minCopperBoardClearance = 0 ∧
    zeroSettings.minCopperNpthClearance = 0 ∧
    zeroSettings.minDrillDrillClearance = 0 ∧
    zeroSettings.minDrillBoardClearance = 0 ∧
    (checkCopperCopperClearances discGeom cexBoardC1 zeroSettings false
        = [] ∧
      checkCopperBoardClearances discGeom cexBoardC1 zeroSettings false
        = [] ∧
      checkCopperHoleClearances discGeom cexBoardC1 zeroSettings false
        = [] ∧
      checkDrillDrillClearances discGeom cexBoardC1 zeroSettings = [] ∧
      checkDrillBoardClearances discGeom cexBoardC1 zeroSettings = [] ∧
      (∀ m ∈ (executeTrace discGeom cexBoardC1 zeroSettings true).messages,
        m.kind ∉ ([.copperCopperClearance, .copperBoardClearance,
          .copperHoleClearance, .drillDrillClearance,
          .drillBoardClearance] : List MsgKind))) :=
  ⟨rfl, rfl, rfl, rfl, rfl,
   drc_C3_zero_clearances_emit_nothing discGeom cexBoardC1 zeroSettings
     false true rfl rfl rfl rfl rfl⟩

/-- Checks that actually ran in one execute call: the checks of the
order whose guard passed (these are the checks that emitted their
status line and did their work). -/
def ranChecks (s : DrcSettings) (quick : Bool) : List CheckId :=
  (drcCheckOrder quick).filter (checkEnabled s)

/-- Status entries contributed by a list of check invocations. -/
theorem flatMap_runCheck_status (g : Geom) (b : Board) (s : DrcSettings)
    (q : Bool) (ids : List CheckId) :
    (ids.map (runCheck g b s q)).flatMap (fun r => r.status)
      = (ids.filter (checkEnabled s)).map StatusTag.check := by
  induction ids with
  | nil => rfl
  | cons a as ih =>
    simp only [List.map_cons, List.flatMap_cons, runCheck_status,
      List.filter_cons, ih]
    by_cases h : checkEnabled s a
    · simp [h]
    · simp [h]

/-- Progress checkpoints contributed by a list of check invocations. -/
theorem flatMap_runCheck_progress (g : Geom) (b : Board)
    (s : DrcSettings) (q : Bool) (ids : List CheckId) :
    (ids.map (runCheck g b s q)).flatMap (fun r => r.progress)
      = (ids.filter (checkEnabled s)).map progressEnd := by
  induction ids with
  | nil => rfl
  | cons a as ih =>
    simp only [List.map_cons, List.flatMap_cons, runCheck_progress,
      List.filter_cons, ih]
    by_cases h : checkEnabled s a
    · simp [h]
    · simp [h]

/-- C7 (amended): in every run the emitted progress percentages are
monotone non-decreasing and end at 100, and the status log consists of
one entry per check that ran, in order, preceded by the plane-rebuild
entry when planes were rebuilt and followed by the final summary entry
of execute. -/
theorem drc_C7_progress_monotone_status_log (g : Geom) (b : Board)
    (s : DrcSettings) (quick : Bool) :
    (executeTrace g b s quick).progress.Pairwise (· ≤ ·) ∧
    (executeTrace g b s quick).progress.getLast? = some (100 : Int) ∧
    (executeTrace g b s quick).statusLog
      = (if quick then [] else [StatusTag.rebuildPlanes])
        ++ (ranChecks s quick).map StatusTag.check
        ++ [StatusTag.finished] := by
  have hprog : (executeTrace g b s quick).progress
      = 2 :: (((if quick then [] else
          [(⟨[.rebuildPlanes], [12], []⟩ : CheckRun)]).flatMap
            (fun r => r.progress)
          ++ (ranChecks s quick).map progressEnd) ++ [100]) := by
    simp only [executeTrace, drcRuns, List.flatMap_append,
      flatMap_runCheck_progress, ranChecks]
  refine ⟨?_, ?_, ?_⟩
  · rw [hprog]
    have hsub : List.Sublist
        (2 :: (((if quick then [] else
          [(⟨[.rebuildPlanes], [12], []⟩ : CheckRun)]).flatMap
            (fun r => r.progress)
          ++ (ranChecks s quick).map progressEnd) ++ [100]))
        (2 :: (([12] ++ (drcCheckOrder false).map progressEnd)
          ++ [100])) := by
      refine List.Sublist.cons₂ 2 (List.Sublist.append ?_
        (List.Sublist.refl _))
      refine List.Sublist.append ?_ ?_
      · cases quick <;> simp
      · have ha : List.Sublist
            ((drcCheckOrder quick).filter (checkEnabled s))
            (drcCheckOrder quick) := List.filter_sublist _
        have hb : List.Sublist (drcCheckOrder quick)
            (drcCheckOrder false) := by
          cases quick
          · exact List.Sublist.refl _
          · unfold drcCheckOrder
            simp only [Bool.false_eq_true, if_true, if_false]
            exact List.Sublist.append (List.Sublist.refl _)
              (List.nil_sublist _)
        exact (ha.trans hb).map progressEnd
    exact List.Pairwise.sublist hsub (by decide)
  · rw [hprog]
    rw [show (2 : Int) :: (((if quick then [] else
        [(⟨[.rebuildPlanes], [12], []⟩ : CheckRun)]).flatMap
          (fun r => r.progress)
        ++ (ranChecks s quick).map progressEnd) ++ [100])
      = ((2 : Int) :: (((if quick then [] else
        [(⟨[.rebuildPlanes], [12], []⟩ : CheckRun)]).flatMap
          (fun r => r.progress)
        ++ (ranChecks s quick).map progressEnd)) ++ [100]) from rfl]
    exact List.getLast?_concat _
  · simp only [executeTrace, drcRuns, List.flatMap_append,
      flatMap_runCheck_status, ranChecks]
    cases quick <;> simp

/-- C7 counterexample: a quick run with every check disabled runs no
check at all, yet the recorded status log still holds one entry (the
final summary line of execute), so the log does not contain exactly one
entry per check that ran; the progress parts of the claim do hold. -/
theorem drc_C7_counterexample :
    ¬ ((executeTrace discGeom emptyBoard zeroSettings true).progress.Pairwise
        (· ≤ ·) ∧
      (executeTrace discGeom emptyBoard zeroSettings
        true).progress.getLast? = some (100 : Int) ∧
      (executeTrace discGeom emptyBoard zeroSettings true).statusLog.length
        = (ranChecks zeroSettings true).length) := by
  decide

/-- Messages accumulated by folding run segments over an engine state. -/
theorem foldl_applyRun_messages (l : List CheckRun) :
    ∀ st : EngineState,
      (l.foldl applyRun st).messages
        = st.messages ++ l.flatMap (fun r => r.messages) := by
  induction l with
  | nil => intro st; simp
  | cons r rs ih =>
    intro st
    simp only [List.foldl_cons, List.flatMap_cons, ih, applyRun,
      List.append_assoc]

/-- C9: execute clears the accumulated message list before running any
check and appends each emitted message exactly once, so afterwards the
engine holds exactly the messages of that run in emission order, and
the resulting engine state is independent of the state left by any
previous run. -/
theorem drc_C9_execute_resets_state (g : Geom) (b : Board)
    (s : DrcSettings) (quick : Bool) (st stPrev : EngineState) :
    (executeOn g b s quick st).messages
      = (executeTrace g b s quick).messages ∧
    executeOn g b s quick st = executeOn g b s quick stPrev := by
  constructor
  · simp only [executeOn, executeTrace, foldl_applyRun_messages]
    rfl
  · rfl

/-- Sequenced run steps succeed exactly when every step succeeds. -/
theorem runSteps_ok (l : List (Except GeomError (List Msg))) :
    exceptOk (runSteps l) = l.all (fun s => exceptOk s) := by
  induction l with
  | nil => rfl
  | cons x xs ih =>
    cases x with
    | error e => rfl
    | ok m =>
      simp only [runSteps, List.all_cons]
      cases h : runSteps xs with
      | error e =>
        rw [h] at ih
        rw [← ih]
        rfl
      | ok rest =>
        rw [h] at ih
        rw [← ih]
        rfl

/-- An error result of the sequenced steps is one of the step errors. -/
theorem runSteps_error (l : List (Except GeomError (List Msg)))
    (e : GeomError) (h : runSteps l = Except.error e) :
    Except.error e ∈ l := by
  induction l with
  | nil => cases h
  | cons x xs ih =>
    cases x with
    | error e2 =>
      unfold runSteps at h
      injection h with h
      rw [h]
      exact List.mem_cons_self _ _
    | ok m =>
      unfold runSteps at h
      cases h2 : runSteps xs with
      | error e2 =>
        rw [h2] at h
        injection h with h
        exact List.mem_cons_of_mem _ (ih (by rw [h2, h]))
      | ok rest =>
        rw [h2] at h
        cases h

/-- C6 (amended): execute installs no exception handler, so a geometry
exception raised by the plane rebuild or by any check propagates out of
execute unchanged as a single error that terminates the run; execute
returns normally exactly when no geometry operation failed.  The
surfacing of the error as a fatal message happens in the caller, not
inside the engine. -/
theorem drc_C6_geometry_errors_propagate (rebuild : Except GeomError Unit)
    (firstFour rest : List (Except GeomError (List Msg)))
    (quick : Bool) :
    (exceptOk (executeExcept rebuild firstFour rest quick)
      = ((quick || exceptOk rebuild) &&
        ((firstFour ++ if quick then [] else rest).all
          (fun x => exceptOk x)))) ∧
    (∀ e : GeomError,
      executeExcept rebuild firstFour rest quick = Except.error e →
      (quick = false ∧ rebuild = Except.error e) ∨
        Except.error e ∈ firstFour ++ (if quick then [] else rest)) := by
  constructor
  · cases quick
    · cases rebuild with
      | error e => rfl
      | ok u =>
        have h1 : executeExcept (Except.ok u) firstFour rest false
            = runSteps (firstFour ++ rest) := rfl
        rw [h1, runSteps_ok]
        rfl
    · have h1 : executeExcept rebuild firstFour rest true
          = runSteps (firstFour ++ []) := rfl
      rw [h1, runSteps_ok]
      rfl
  · intro e he
    cases quick
    · cases rebuild with
      | error e2 =>
        have h1 : executeExcept (Except.error e2) firstFour rest false
            = Except.error e2 := rfl
        rw [h1] at he
        injection he with he
        exact Or.inl ⟨rfl, by rw [he]⟩
      | ok u =>
        have h1 : executeExcept (Except.ok u) firstFour rest false
            = runSteps (firstFour ++ rest) := rfl
        rw [h1] at he
        exact Or.inr (runSteps_error _ e he)
    · have h1 : executeExcept rebuild firstFour rest true
          = runSteps (firstFour ++ []) := rfl
      rw [h1] at he
      exact Or.inr (runSteps_error _ e he)

/-- C6 counterexample: a degenerate-path exception raised by the second
check leaves execute as an uncaught error — the engine does not catch
geometry exceptions at engine scope, the caller does. -/
theorem drc_C6_counterexample :
    executeExcept (Except.ok ())
        [Except.ok [], Except.error GeomError.degeneratePath,
          Except.ok [], Except.ok []] [] true
      = Except.error GeomError.degeneratePath ∧
    exceptOk (executeExcept (Except.ok ())
        [Except.ok [], Except.error GeomError.degeneratePath,
          Except.ok [], Except.ok []] [] true) = false := by
  exact ⟨rfl, rfl⟩

/-- Approved count and remaining messages of approval resolution. -/
theorem resolveApprovals_spec {κ τ : Type} [DecidableEq κ]
    (msgs : List (EnvMsg κ τ)) (approved : List κ) :
    (resolveApprovals msgs approved).fst
      = (msgs.filter (fun m => m.approvalKey ∈ approved)).length ∧
    (resolveApprovals msgs approved).snd
      = msgs.filter (fun m => m.approvalKey ∉ approved) := by
  induction msgs with
  | nil => exact ⟨rfl, rfl⟩
  | cons m ms ih =>
    simp only [resolveApprovals, List.filter_cons]
    by_cases h : m.approvalKey ∈ approved
    · simp [h, ih.1, ih.2]
    · simp [h, ih.1, ih.2]

/-- C8: approval resolution returns the count of the approved messages
and the remaining messages in emission order, a message being approved
exactly when its approval key lies in the approved set; the
presentation sort is a permutation of the remaining messages ordered by
severity descending and, within equal severity, by localized message
text ascending. -/
theorem drc_C8_approval_resolution {κ τ : Type} [DecidableEq κ]
    [LinearOrder τ] (msgs : List (EnvMsg κ τ)) (approved : List κ) :
    (resolveApprovals msgs approved).fst
      = (msgs.filter (fun m => m.approvalKey ∈ approved)).length ∧
    (resolveApprovals msgs approved).snd
      = msgs.filter (fun m => m.approvalKey ∉ approved) ∧
    (sortForPresentation (resolveApprovals msgs approved).snd).Perm
      (resolveApprovals msgs approved).snd ∧
    List.Sorted presentLE
      (sortForPresentation (resolveApprovals msgs approved).snd) :=
  ⟨(resolveApprovals_spec msgs approved).1,
   (resolveApprovals_spec msgs approved).2,
   List.perm_insertionSort presentLE _,
   List.sorted_insertionSort presentLE _⟩
